import Mathlib

/-!
# Bin-based comparative analytics engine (explore.js, story.js)

A shallow embedding of the analytic core of `src/explore.js`: the two card bins
(`state.toxicBin`, `state.spellBin`), the bin mutations, the search filter
`getFilteredCards`, the comparison dataset `buildChartDataForArena`, the chart domains and
mean lines; and of `src/story.js`: the per-arena means, the gap bar, its label and the
previous-arena tick of `renderArenaChart`.

Conventions of the embedding

* A JavaScript `Set` of strings is an insertion-ordered list without duplicates (`StrSet`).
* Module-level mutable variables are passed explicitly (`State`, `allCards`,
  `selectedArenaName`); a mutating function returns the new state.
* `undefined`/`null` strings are `Option String`; numbers that are counts are `Int`,
  win rates, means and chart coordinates are `ℚ` (exact arithmetic, no rounding).
* Collaborators living outside `explore.js` (the `window.*` lookups, the built-ins
  `String.prototype.toLowerCase` and `Number`) are parameters, collected in `Env`.
-/

namespace Explore

/-! ## JavaScript `Set` of strings -/

/-- A JavaScript `Set` holding strings: its elements in insertion order, each at most once. -/
def StrSet : Type := { l : List String // l.Nodup }

instance : DecidableEq StrSet := inferInstanceAs (DecidableEq { l : List String // l.Nodup })

namespace StrSet

/-- The elements in iteration (insertion) order, as `Set.prototype.forEach` visits them. -/
def toList (s : StrSet) : List String := s.val

/-- The set after `clear()`. -/
def empty : StrSet := ⟨[], List.nodup_nil⟩

/-- Membership test `set.has(x)`. -/
def has (s : StrSet) (x : String) : Bool := decide (x ∈ s.val)

/-- The set after `set.add(x)`: unchanged when `x` is present, else `x` is appended. -/
def add (s : StrSet) (x : String) : StrSet :=
  if h : x ∈ s.val then s
  else ⟨s.val ++ [x], by
    refine List.Nodup.append s.property (List.nodup_singleton x) ?_
    intro a ha hx
    have hax : a = x := by simpa using hx
    exact h (hax ▸ ha)⟩

/-- The set after `set.delete(x)`. -/
def delete (s : StrSet) (x : String) : StrSet :=
  ⟨s.val.erase x, s.property.erase x⟩

end StrSet

/-! ## Module state -/

/-- The `state` object of explore.js. -/
structure State where
  toxicBin : StrSet
  spellBin : StrSet
  chartMode : String
deriving DecidableEq

/-- The initial value of `state`: two empty bins, chart mode `"wins"`. -/
def State.initial : State :=
  { toxicBin := StrSet.empty, spellBin := StrSet.empty, chartMode := "wins" }

/-- A numeric field of a catalog row as a JavaScript value: missing property, `null`,
or a number. -/
inductive NumField where
  | undefined : NumField
  | null : NumField
  | num (n : Int) : NumField
deriving DecidableEq, Repr

/-- One catalog row (an element of `allCards`). Only the fields explore.js reads by name
are listed; `stats` stands for the remaining columns, which explore.js reads only through
`window.getWinsForArena` and `window.getWinRateForArena`. -/
structure Card where
  card_name : String
  bin : Option String
  elixir : NumField
  rarity : Option String
  card_type : Option String
  overall_count : Option Int
  stats : List (String × Int)
deriving DecidableEq, Repr

/-- JavaScript truthiness of a value that is `undefined`/`null` or a string. -/
def truthy : Option String → Bool
  | none => false
  | some s => s != ""

/-! ## Bin management -/

/-- Function `addToBin(binKey, cardName)` (explore.js 466-480), without the redraw calls. -/
def addToBin (s : State) (binKey : String) (cardName : Option String) : State :=
  match cardName with
  | none => s
  | some name =>
    if name = "" then s
    else if binKey = "toxic" then
      { s with spellBin := s.spellBin.delete name, toxicBin := s.toxicBin.add name }
    else
      { s with toxicBin := s.toxicBin.delete name, spellBin := s.spellBin.add name }

/-- One step of `allCards.forEach` in `inferInitialBins`. -/
def seedRow (s : State) (row : Card) : State :=
  if row.bin = some "toxic_troop" then { s with toxicBin := s.toxicBin.add row.card_name }
  else if row.bin = some "cheap_spell" then { s with spellBin := s.spellBin.add row.card_name }
  else s

/-- Function `inferInitialBins()` (explore.js 43-51); it is all the reset button does to
the bins (explore.js 245-250). -/
def inferInitialBins (allCards : List Card) (s : State) : State :=
  allCards.foldl seedRow { s with toxicBin := StrSet.empty, spellBin := StrSet.empty }

/-- The click handler of "Clear both bins" (explore.js 256-262), without the redraw calls. -/
def clearAll (s : State) : State :=
  { s with toxicBin := StrSet.empty, spellBin := StrSet.empty }

/-- The click handler of a bin pill's remove button (explore.js 518-524):
`state[bin === "toxic" ? "toxicBin" : "spellBin"].delete(d)`. -/
def removeFromBin (s : State) (bin : String) (d : String) : State :=
  if bin = "toxic" then { s with toxicBin := s.toxicBin.delete d }
  else { s with spellBin := s.spellBin.delete d }

/-- Runs a finite sequence of `addToBin(binKey, cardName)` calls. -/
def runAddToBin (s : State) (calls : List (String × Option String)) : State :=
  calls.foldl (fun st c => addToBin st c.1 c.2) s

/-- The two bins share no card name. -/
def BinsDisjoint (s : State) : Prop :=
  ∀ n : String, ¬ (s.toxicBin.has n = true ∧ s.spellBin.has n = true)

/-! ## Collaborators outside explore.js -/

/-- What explore.js takes from its surroundings: the two `window` lookups defined by the
catalog loader (`getWinRateForArena` may be missing, which `typeof` detects) and the
JavaScript built-ins `String.prototype.toLowerCase` and `Number` applied to a string
(`none` stands for `NaN`). `window.getWinsForArena` is called unguarded by the sort in
`getFilteredCards` and by `buildChartDataForArena`, so it is taken to be a function. The
arena argument is `selectedArenaName`, which may be `null` (`none`). -/
structure Env where
  getWinsForArena : Card → Option String → Int
  getWinRateForArena : Option (Card → Option String → ℚ)
  toLowerCase : String → String
  toNumber : String → Option Int

/-- The values of the four filter controls read by `getFilteredCards`. -/
structure Filters where
  searchValue : String
  elixirFilter : String
  rarityFilter : String
  typeFilter : String

/-- JavaScript `Number(v)` for a numeric row field: `Number(undefined)` is `NaN` (`none`),
`Number(null)` is `0`. -/
def NumField.toNumber : NumField → Option Int
  | NumField.undefined => none
  | NumField.null => some 0
  | NumField.num n => some n

/-- Strict equality `a === b` of two numbers, either of which may be `NaN` (`none`). -/
def numStrictEq : Option Int → Option Int → Bool
  | some x, some y => x == y
  | _, _ => false

/-- JavaScript `s.includes(t)`: `t` occurs in `s` as a contiguous run. -/
def includes (s t : String) : Bool := decide (t.data <:+: s.data)

/-! ## Search -/

/-- The callback of the text filter (explore.js 337-344). -/
def matchesTerm (env : Env) (term : String) (row : Card) : Bool :=
  let name := env.toLowerCase row.card_name
  let type := env.toLowerCase (row.card_type.getD "")
  let rarity := env.toLowerCase (row.rarity.getD "")
  includes name term || includes type term || includes rarity term

/-- The sort order of `getFilteredCards`: `a` may stand before `b` when
`d3.descending(wins a, wins b) <= 0`. -/
def winsDesc (env : Env) (arena : Option String) (a b : Card) : Prop :=
  env.getWinsForArena b arena ≤ env.getWinsForArena a arena

instance (env : Env) (arena : Option String) : DecidableRel (winsDesc env arena) :=
  fun a b => inferInstanceAs (Decidable (env.getWinsForArena b arena ≤ env.getWinsForArena a arena))

instance winsDesc_isTotal (env : Env) (arena : Option String) :
    IsTotal Card (winsDesc env arena) :=
  ⟨fun a b => le_total (env.getWinsForArena b arena) (env.getWinsForArena a arena)⟩

instance winsDesc_isTrans (env : Env) (arena : Option String) :
    IsTrans Card (winsDesc env arena) :=
  ⟨fun _ _ _ hab hbc => le_trans hbc hab⟩

/-- The chain of `filter` calls of `getFilteredCards` (explore.js 327-359), before sorting. -/
def filterCards (env : Env) (allCards : List Card) (selectedArenaName : Option String)
    (f : Filters) : List Card :=
  let term := env.toLowerCase f.searchValue
  let filtered := allCards
  let filtered :=
    if truthy selectedArenaName then
      filtered.filter (fun row => decide (env.getWinsForArena row selectedArenaName > 0))
    else filtered
  let filtered :=
    if term ≠ "" then filtered.filter (matchesTerm env term) else filtered
  let filtered :=
    if f.elixirFilter ≠ "" then
      filtered.filter (fun row => numStrictEq row.elixir.toNumber (env.toNumber f.elixirFilter))
    else filtered
  let filtered :=
    if f.rarityFilter ≠ "" then
      filtered.filter (fun row => decide (row.rarity = some f.rarityFilter))
    else filtered
  let filtered :=
    if f.typeFilter ≠ "" then
      filtered.filter (fun row => decide (row.card_type = some f.typeFilter))
    else filtered
  filtered

/-- Function `getFilteredCards()` (explore.js 315-370). `Array.prototype.sort` is a stable
sort; it is rendered by the stable insertion sort. -/
def getFilteredCards (env : Env) (allCards : List Card) (selectedArenaName : Option String)
    (f : Filters) : List Card :=
  (filterCards env allCards selectedArenaName f).insertionSort (winsDesc env selectedArenaName)

/-- The cards `updateSearchResults` displays: `getFilteredCards().slice(0, 40)`. -/
def shownCards (env : Env) (allCards : List Card) (selectedArenaName : Option String)
    (f : Filters) : List Card :=
  (getFilteredCards env allCards selectedArenaName f).take 40

/-! ## Chart data -/

/-- One element of the array returned by `buildChartDataForArena`. -/
structure Datum where
  card_name : String
  wins : Int
  win_rate : ℚ
  bin : String
deriving DecidableEq

/-- The lookup `byName.get(name)` in `new Map(allCards.map((r) => [r.card_name, r]))`:
a later row with the same name replaces an earlier one. -/
def byNameGet (allCards : List Card) (name : String) : Option Card :=
  allCards.foldl (fun acc r => if r.card_name = name then some r else acc) none

/-- The win rate computed inside `add` (explore.js 546-553); `x || 0` is `x` on numbers. -/
def winRateFor (env : Env) (row : Card) (arena : Option String) (wins : Int) : ℚ :=
  match env.getWinRateForArena with
  | some getRate => getRate row arena
  | none =>
    let total := row.overall_count.getD 0
    if total ≠ 0 then (wins : ℚ) / (total : ℚ) else 0

/-- The local function `add(name, bin)` of `buildChartDataForArena`: the datum it pushes,
or `none` when it returns early. -/
def addDatum (env : Env) (allCards : List Card) (arena : Option String)
    (name bin : String) : Option Datum :=
  match byNameGet allCards name with
  | none => none
  | some row =>
    let wins := env.getWinsForArena row arena
    if wins ≤ 0 then none
    else some { card_name := name, wins := wins,
                win_rate := winRateFor env row arena wins, bin := bin }

/-- The array `combined` after both `forEach` loops (explore.js 564-565). -/
def combinedData (env : Env) (allCards : List Card) (arena : Option String)
    (s : State) : List Datum :=
  s.toxicBin.toList.filterMap (fun name => addDatum env allCards arena name "toxic_troop") ++
  s.spellBin.toList.filterMap (fun name => addDatum env allCards arena name "cheap_spell")

/-- Order used when `sortMode === "winrate"`. -/
def rateDesc (a b : Datum) : Prop := b.win_rate ≤ a.win_rate

/-- Order used for every other `sortMode`. -/
def datumWinsDesc (a b : Datum) : Prop := b.wins ≤ a.wins

instance : DecidableRel rateDesc := fun a b => inferInstanceAs (Decidable (b.win_rate ≤ a.win_rate))

instance : DecidableRel datumWinsDesc := fun a b => inferInstanceAs (Decidable (b.wins ≤ a.wins))

instance rateDesc_isTotal : IsTotal Datum rateDesc :=
  ⟨fun a b => le_total b.win_rate a.win_rate⟩

instance rateDesc_isTrans : IsTrans Datum rateDesc :=
  ⟨fun _ _ _ hab hbc => le_trans hbc hab⟩

instance datumWinsDesc_isTotal : IsTotal Datum datumWinsDesc :=
  ⟨fun a b => le_total b.wins a.wins⟩

instance datumWinsDesc_isTrans : IsTrans Datum datumWinsDesc :=
  ⟨fun _ _ _ hab hbc => le_trans hbc hab⟩

/-- Function `buildChartDataForArena(sortMode)` (explore.js 533-575). -/
def buildChartDataForArena (env : Env) (allCards : List Card)
    (selectedArenaName : Option String) (s : State) (sortMode : String) : List Datum :=
  if truthy selectedArenaName = false then []
  else
    let combined := combinedData env allCards selectedArenaName s
    if sortMode = "winrate" then combined.insertionSort rateDesc
    else combined.insertionSort datumWinsDesc

/-- The test a row must pass to survive every `filter` call of `getFilteredCards`: the
conjunction of the callbacks, each guarded as in the source. -/
def passes (env : Env) (selectedArenaName : Option String) (f : Filters) (row : Card) : Bool :=
  (!truthy selectedArenaName || decide (env.getWinsForArena row selectedArenaName > 0)) &&
  (decide (env.toLowerCase f.searchValue = "") ||
    matchesTerm env (env.toLowerCase f.searchValue) row) &&
  (decide (f.elixirFilter = "") ||
    numStrictEq row.elixir.toNumber (env.toNumber f.elixirFilter)) &&
  (decide (f.rarityFilter = "") || decide (row.rarity = some f.rarityFilter)) &&
  (decide (f.typeFilter = "") || decide (row.card_type = some f.typeFilter))

/-! ## d3 array statistics and `||` on numbers

JavaScript numbers are rendered by exact rationals: `0.1` is `1/10`, `0.02` is `1/50`,
`0.05` is `1/20`, `0.025` is `1/40`, `1e-6` is `1/1000000`. -/

/-- Library function `d3.min(values)`: the least value, `undefined` (`none`) for an empty
array. -/
def d3min : List ℚ → Option ℚ
  | [] => none
  | x :: xs => some (xs.foldl min x)

/-- Library function `d3.max(values)`: the greatest value, `undefined` (`none`) for an empty
array. -/
def d3max : List ℚ → Option ℚ
  | [] => none
  | x :: xs => some (xs.foldl max x)

/-- Library function `d3.mean(values)`: the sum divided by the count, `undefined` (`none`)
for an empty array. -/
def d3mean (values : List ℚ) : Option ℚ :=
  if values.length = 0 then none else some (values.sum / (values.length : ℚ))

/-- JavaScript `a || b` where `a` is a number or `undefined`: `b` when `a` is `undefined`
or `0`, else `a`. -/
def orNum (a : Option ℚ) (b : ℚ) : ℚ :=
  match a with
  | none => b
  | some x => if x = 0 then b else x

/-! ## Chart scales and mean lines -/

/-- The domain `[yMin, yMax]` that `renderWinsChart` hands to `d3.scaleLinear().domain`,
before `.nice()` (explore.js 639-653). -/
def renderWinsChartDomain (data : List Datum) : ℚ × ℚ :=
  let minWins := orNum (d3min (data.map (fun d => (d.wins : ℚ)))) 0
  let maxWins := orNum (d3max (data.map (fun d => (d.wins : ℚ)))) 0
  let pad := orNum (some ((maxWins - minWins) * (1 / 10))) (orNum (some maxWins) 1 * (1 / 10))
  let yMin := max 0 (minWins - pad)
  let yMax := maxWins + pad
  if yMax ≤ yMin then (0, orNum (some maxWins) 1) else (yMin, yMax)

/-- The pair `(yMin, yMax)` of `renderWinRateChart` after padding and clamping, before the
minimum-band step (explore.js 803-812). -/
def renderWinRateChartPadded (data : List Datum) : ℚ × ℚ :=
  let minRate := d3min (data.map (fun d => d.win_rate))
  let maxRate := d3max (data.map (fun d => d.win_rate))
  let yMin := minRate.getD 0
  let yMax := maxRate.getD (1 / 2)
  let pad := orNum (some ((yMax - yMin) * (1 / 10))) (1 / 50)
  (max 0 (yMin - pad), min 1 (yMax + pad))

/-- The domain `[yMin, yMax]` that `renderWinRateChart` hands to `d3.scaleLinear().domain`,
before `.nice()` (explore.js 803-819). -/
def renderWinRateChartDomain (data : List Datum) : ℚ × ℚ :=
  let yMin := (renderWinRateChartPadded data).1
  let yMax := (renderWinRateChartPadded data).2
  if yMax - yMin < 1 / 20 then
    let mid := (yMax + yMin) / 2
    (max 0 (mid - 1 / 40), min 1 (mid + 1 / 40))
  else (yMin, yMax)

/-- The pair `(toxicMean, spellMean)` of `renderWinsChart` (explore.js 702-708). -/
def renderWinsChartMeans (data : List Datum) : Option ℚ × Option ℚ :=
  (d3mean ((data.filter (fun d => d.bin == "toxic_troop")).map (fun d => (d.wins : ℚ))),
   d3mean ((data.filter (fun d => d.bin == "cheap_spell")).map (fun d => (d.wins : ℚ))))

/-- The pair `(toxicMean, spellMean)` of `renderWinRateChart` (explore.js 894-899). -/
def renderWinRateChartMeans (data : List Datum) : Option ℚ × Option ℚ :=
  (d3mean ((data.filter (fun d => d.bin == "toxic_troop")).map (fun d => d.win_rate)),
   d3mean ((data.filter (fun d => d.bin == "cheap_spell")).map (fun d => d.win_rate)))

/-! ## Initialisation -/

/-- One entry of `window.ARENA_CONFIG`; explore.js reads only its `name`. -/
structure ArenaEntry where
  name : Option String
deriving DecidableEq

/-- The module-level variables `allCards`, `arenaConfig`, `selectedArenaName`. -/
structure Module where
  allCards : List Card
  arenaConfig : List ArenaEntry
  selectedArenaName : Option String

/-- The module variables as declared (explore.js 6-8). -/
def Module.initial : Module :=
  { allCards := [], arenaConfig := [], selectedArenaName := none }

/-- What `initExplorer` assigns to the module variables (explore.js 18-31), the two chart
containers being present. `loadCardData` is `none` when `window.loadCardData` is not a
function, else the rows its promise resolves to (`none` for `null`/`undefined`);
`arenaConfig` is `window.ARENA_CONFIG`. In the first case `initExplorer` returns before
`buildExplorerUI`, so the filter controls that `getFilteredCards` reads do not exist; in
the second the controls are built before any query is made. -/
def initExplorer (loadCardData : Option (Option (List Card)))
    (arenaConfig : Option (List ArenaEntry)) : Module :=
  match loadCardData with
  | none => Module.initial
  | some rows =>
    let config := arenaConfig.getD []
    { allCards := rows.getD []
      arenaConfig := config
      selectedArenaName :=
        match config.getLast? with
        | some entry => if truthy entry.name then entry.name else none
        | none => none }

/-! ## Reference notions of the specification -/

/-- The padded win-rate domain as the specification words it (domain-scaling steps 2-3):
`pad = (maxV - minV) * 0.1`, or `max(maxV, 1) * 0.1` when that is zero; then
`[max(0, minV - pad), min(1, maxV + pad)]`. -/
def specRatePadded (minV maxV : ℚ) : ℚ × ℚ :=
  let pad := if (maxV - minV) * (1 / 10) ≠ 0 then (maxV - minV) * (1 / 10)
    else max maxV 1 * (1 / 10)
  (max 0 (minV - pad), min 1 (maxV + pad))

/-- The wins domain as the specification words it (domain-scaling steps 2-4). -/
def specWinsDomain (minV maxV : ℚ) : ℚ × ℚ :=
  let pad := if (maxV - minV) * (1 / 10) ≠ 0 then (maxV - minV) * (1 / 10)
    else max maxV 1 * (1 / 10)
  let loDomain := max 0 (minV - pad)
  let hiDomain := maxV + pad
  if hiDomain ≤ loDomain then (0, max maxV 1) else (loDomain, hiDomain)

/-- The value `m` is the per-bin mean as the specification words it, for the data points
`points`, the test `inBin` for carrying the bin's tag and the active metric `metric`: it is
absent exactly when no point carries the tag, else it is the sum of the metric over the
points carrying the tag divided by their count, a present `0` when all those metrics
are `0`. -/
def IsBinMean {α : Type} (m : Option ℚ) (points : List α) (inBin : α → Bool)
    (metric : α → ℚ) : Prop :=
  (m = none ↔ ∀ p ∈ points, inBin p = false) ∧
  ((∃ p ∈ points, inBin p = true) →
    m = some (((points.filter inBin).map metric).sum /
      (((points.filter inBin).map metric).length : ℚ))) ∧
  ((∃ p ∈ points, inBin p = true) → (∀ p ∈ points, inBin p = true → metric p = 0) →
    m = some 0)

/-! ## Sample data -/

/-- A small catalog used to instantiate statements: one toxic troop, one cheap spell, one
card without a default group. -/
def sampleCatalog : List Card :=
  [ { card_name := "Skeleton Army", bin := some "toxic_troop", elixir := NumField.num 3,
      rarity := some "Epic", card_type := some "Troop", overall_count := some 200,
      stats := [("Legendary Arena", 120)] },
    { card_name := "The Log", bin := some "cheap_spell", elixir := NumField.num 2,
      rarity := some "Legendary", card_type := some "Spell", overall_count := some 100,
      stats := [("Legendary Arena", 95)] },
    { card_name := "Mirror", bin := none, elixir := NumField.null,
      rarity := some "Epic", card_type := some "Spell", overall_count := none, stats := [] } ]

/-- ASCII lower-casing, character by character. -/
def asciiLower (s : String) : String := ⟨s.data.map Char.toLower⟩

/-- The value of a string of decimal digits (`Number("")` is `0`); `none` for anything else. -/
def decimalNumber (s : String) : Option Int :=
  (s.data.foldl
    (fun acc c =>
      match acc with
      | none => none
      | some n => if c.isDigit then some (10 * n + (c.toNat - 48)) else none)
    (some 0)).map Int.ofNat

/-- A sample environment: per-arena wins are read from the row's `stats` columns, there is
no rate lookup, and the built-ins are rendered by their ASCII counterparts. -/
def sampleEnv : Env :=
  { getWinsForArena := fun row arena =>
      match arena with
      | some a => (row.stats.lookup a).getD 0
      | none => 0
    getWinRateForArena := none
    toLowerCase := asciiLower
    toNumber := decimalNumber }

/-- Filter controls in their initial position: empty search box, every facet on "Any". -/
def noFilters : Filters :=
  { searchValue := "", elixirFilter := "", rarityFilter := "", typeFilter := "" }

/-- A catalog in which two rows carry the same name, one declared a toxic troop and one a
cheap spell. -/
def conflictCatalog : List Card :=
  [ { card_name := "A", bin := some "toxic_troop", elixir := NumField.num 3,
      rarity := some "Epic", card_type := some "Troop", overall_count := some 10,
      stats := [] },
    { card_name := "A", bin := some "cheap_spell", elixir := NumField.num 2,
      rarity := some "Common", card_type := some "Spell", overall_count := some 10,
      stats := [] } ]

/-- A catalog with a card whose `elixir` is `null` and a card whose `elixir` is the
number `0`, both with wins in "Legendary Arena". -/
def nullElixirCatalog : List Card :=
  [ { card_name := "Mirror", bin := none, elixir := NumField.null, rarity := some "Epic",
      card_type := some "Spell", overall_count := some 80,
      stats := [("Legendary Arena", 50)] },
    { card_name := "Training Dummy", bin := none, elixir := NumField.num 0,
      rarity := some "Common", card_type := some "Troop", overall_count := some 90,
      stats := [("Legendary Arena", 70)] } ]

/-- The datum `buildChartDataForArena` makes of "Skeleton Army" in the sample catalog. -/
def sampleDatum : Datum :=
  { card_name := "Skeleton Army", wins := 120,
    win_rate := winRateFor sampleEnv
      { card_name := "Skeleton Army", bin := some "toxic_troop", elixir := NumField.num 3,
        rarity := some "Epic", card_type := some "Troop", overall_count := some 200,
        stats := [("Legendary Arena", 120)] } (some "Legendary Arena") 120,
    bin := "toxic_troop" }

/-- A chart dataset whose win rates are 0.48, 0.50 and 0.52. -/
def sampleRates : List Datum :=
  [ { card_name := "A", wins := 12, win_rate := 12 / 25, bin := "toxic_troop" },
    { card_name := "B", wins := 10, win_rate := 1 / 2, bin := "cheap_spell" },
    { card_name := "C", wins := 13, win_rate := 13 / 25, bin := "toxic_troop" } ]

/-- A chart dataset with a single card whose win rate is `rate`. -/
def singleRate (rate : ℚ) : List Datum :=
  [ { card_name := "A", wins := 12, win_rate := rate, bin := "toxic_troop" } ]

end Explore

/-! # Narrative arena charts (story.js) -/

namespace Story

/-- One element of `STORY_CHART_DATA[arenaName]`. -/
structure Row where
  card_name : String
  bin : Option String
  wins : Int
deriving DecidableEq

/-- The constant `STORY_ARENAS` (story.js 23-29): container selector and arena name. -/
def STORY_ARENAS : List (String × String) :=
  [ ("#chart-spooky-town", "Spooky Town"),
    ("#chart-rascals-hideout", "Rascal's Hideout"),
    ("#chart-serenity-peak", "Serenity Peak"),
    ("#chart-miners-mine", "Miner's Mine"),
    ("#chart-legendary-arena", "Legendary Arena") ]

/-- Function `getArenaData(arenaName)` (story.js 128-139); `chartData` is
`window.STORY_CHART_DATA`, `none` when it is not defined. -/
def getArenaData (chartData : Option (String → Option (List Row))) (arenaName : String) :
    List Row :=
  match chartData with
  | none => []
  | some table =>
    ((table arenaName).getD []).filter
      (fun d => d.bin == some "toxic_troop" || d.bin == some "cheap_spell")

/-- Order of `data.slice().sort((a, b) => d3.descending(a.wins, b.wins))`. -/
def rowWinsDesc (a b : Row) : Prop := b.wins ≤ a.wins

instance : DecidableRel rowWinsDesc := fun a b => inferInstanceAs (Decidable (b.wins ≤ a.wins))

instance rowWinsDesc_isTotal : IsTotal Row rowWinsDesc :=
  ⟨fun a b => le_total b.wins a.wins⟩

instance rowWinsDesc_isTrans : IsTrans Row rowWinsDesc :=
  ⟨fun _ _ _ hab hbc => le_trans hbc hab⟩

/-- The wins of the rows of one bin:
`rows.filter((d) => d.bin === tag).map((d) => d.wins)`. -/
def binValues (rows : List Row) (tag : String) : List ℚ :=
  (rows.filter (fun d => d.bin == some tag)).map (fun d => (d.wins : ℚ))

/-- The guarded mean `values.length ? d3.mean(values) : null`. -/
def binMean (values : List ℚ) : Option ℚ :=
  if values.length ≠ 0 then Explore.d3mean values else none

/-- The text of the gap-bar label (story.js 362-367). -/
def gapLabel (toxicScore spellScore : ℚ) : String :=
  if |toxicScore - spellScore| < 1 / 1000000 then
    "Difference between mean lines: very small in this arena"
  else if toxicScore > spellScore then
    "Difference between mean lines: toxic troops higher in this arena"
  else
    "Difference between mean lines: cheap spells higher in this arena"

/-- The x position of the previous-arena tick, `none` when it is not drawn
(story.js 378-416). -/
def prevTick (chartData : Option (String → Option (List Row))) (totalBarWidth : ℚ)
    (previousArenaName : Option String) : Option ℚ :=
  match previousArenaName with
  | none => none
  | some prev =>
    if Explore.truthy (some prev) = false then none
    else
      let prevData := getArenaData chartData prev
      let prevToxicMean := binMean (binValues prevData "toxic_troop")
      let prevSpellMean := binMean (binValues prevData "cheap_spell")
      match prevToxicMean, prevSpellMean with
      | some pt, some ps =>
        let prevTotal := pt + ps
        if prevTotal > 0 then some (pt / prevTotal * totalBarWidth) else none
      | _, _ => none

/-- The group `mean-gap-summary`: the two rectangles, the label and the tick. -/
structure GapBar where
  toxicX : ℚ
  toxicWidth : ℚ
  spellX : ℚ
  spellWidth : ℚ
  label : String
  tickX : Option ℚ
deriving DecidableEq

/-- The block "bottom stacked bar" of `renderArenaChart` (story.js 331-418): the gap bar
drawn for the two means, `none` when nothing is drawn. -/
def gapSummary (chartData : Option (String → Option (List Row))) (width : ℚ)
    (previousArenaName : Option String) (toxicMean spellMean : Option ℚ) : Option GapBar :=
  match toxicMean, spellMean with
  | some toxicScore, some spellScore =>
    let totalScore := toxicScore + spellScore
    if totalScore > 0 then
      let totalBarWidth := width
      let toxicWidth := toxicScore / totalScore * totalBarWidth
      some { toxicX := 0, toxicWidth := toxicWidth, spellX := toxicWidth,
             spellWidth := totalBarWidth - toxicWidth,
             label := gapLabel toxicScore spellScore,
             tickX := prevTick chartData totalBarWidth previousArenaName }
    else none
  | _, _ => none

/-- What `renderArenaChart` derives from the data: the two mean lines and the gap bar
(`none` for what is not drawn). -/
structure ArenaChart where
  toxicMean : Option ℚ
  spellMean : Option ℚ
  gap : Option GapBar
deriving DecidableEq

/-- Function `renderArenaChart(containerSelector, arenaName, previousArenaName)`
(story.js 141-418), the container being present and `width` its plot width: `none` when it
stops at "No data available", else the means and the gap bar. -/
def renderArenaChart (chartData : Option (String → Option (List Row))) (width : ℚ)
    (arenaName : String) (previousArenaName : Option String) : Option ArenaChart :=
  let data := getArenaData chartData arenaName
  if data.length = 0 then none
  else
    let sortedData := data.insertionSort rowWinsDesc
    let toxicMean := binMean (binValues sortedData "toxic_troop")
    let spellMean := binMean (binValues sortedData "cheap_spell")
    some { toxicMean := toxicMean, spellMean := spellMean,
           gap := gapSummary chartData width previousArenaName toxicMean spellMean }

/-- The `prevArena` that `renderStoryCharts` computes for the arena at index `idx`. -/
def prevArena (idx : Nat) : Option String :=
  if idx > 0 then (STORY_ARENAS.get? (idx - 1)).map (fun cfg => cfg.2) else none

/-- Function `renderStoryCharts()` (story.js 456-462): the chart of every story arena, in
order; `width` gives the plot width of each container. -/
def renderStoryCharts (chartData : Option (String → Option (List Row)))
    (width : String → ℚ) : List (Option ArenaChart) :=
  STORY_ARENAS.enum.map
    (fun p => renderArenaChart chartData (width p.2.1) p.2.2 (prevArena p.1))

/-- The domain `[yMin, yMax]` that `renderArenaChart` hands to `d3.scaleLinear().domain`,
before `.nice()` (story.js 199-212), computed from `sortedData`. -/
def arenaChartDomain (sortedData : List Row) : ℚ × ℚ :=
  let minWins := Explore.orNum (Explore.d3min (sortedData.map (fun d => (d.wins : ℚ)))) 0
  let maxWins := Explore.orNum (Explore.d3max (sortedData.map (fun d => (d.wins : ℚ)))) 1
  let pad := Explore.orNum
    (some (Explore.orNum (some ((maxWins - minWins) * (1 / 10))) (maxWins * (1 / 10)))) 1
  let yMin := max 0 (minWins - pad)
  let yMax := maxWins + pad
  if yMax ≤ yMin then (0, Explore.orNum (some maxWins) 1) else (yMin, yMax)

/-- The wins domain of the chart `renderArenaChart` draws for an arena with data: the
domain of the sorted copy of `getArenaData(arenaName)`. -/
def renderArenaChartDomain (chartData : Option (String → Option (List Row)))
    (arenaName : String) : ℚ × ℚ :=
  arenaChartDomain ((getArenaData chartData arenaName).insertionSort rowWinsDesc)

/-- Explorer chart data with the wins of the sample arena "Spooky Town": 100 and 40. -/
def sampleWinsData : List Explore.Datum :=
  [ { card_name := "A", wins := 100, win_rate := 1 / 2, bin := "toxic_troop" },
    { card_name := "B", wins := 40, win_rate := 2 / 5, bin := "cheap_spell" } ]

/-- Sample `STORY_CHART_DATA`: "Spooky Town" with card A (toxic, 100 wins) and card B
(spell, 40 wins); "Rascal's Hideout" with both means equal to 50; "Serenity Peak" with no
toxic card. -/
def sampleStory : Option (String → Option (List Row)) :=
  some (fun arena =>
    if arena = "Spooky Town" then
      some [ { card_name := "A", bin := some "toxic_troop", wins := 100 },
             { card_name := "B", bin := some "cheap_spell", wins := 40 } ]
    else if arena = "Rascal's Hideout" then
      some [ { card_name := "A", bin := some "toxic_troop", wins := 50 },
             { card_name := "B", bin := some "cheap_spell", wins := 50 } ]
    else if arena = "Serenity Peak" then
      some [ { card_name := "B", bin := some "cheap_spell", wins := 40 } ]
    else none)

end Story

namespace Explore

/-! ## Lemmas on `StrSet` -/

theorem StrSet.ext_val {a b : StrSet} (h : a.val = b.val) : a = b := Subtype.ext h

@[simp] theorem StrSet.has_empty (x : String) : StrSet.empty.has x = false := by
  simp [StrSet.has, StrSet.empty]

theorem StrSet.has_iff (s : StrSet) (x : String) : s.has x = true ↔ x ∈ s.val := by
  simp [StrSet.has]

theorem StrSet.has_add (s : StrSet) (x y : String) :
    (s.add x).has y = true ↔ (y = x ∨ s.has y = true) := by
  unfold StrSet.add
  by_cases h : x ∈ s.val
  · simp only [h, dite_true, StrSet.has_iff]
    constructor
    · intro hy; exact Or.inr hy
    · rintro (rfl | hy)
      · exact h
      · exact hy
  · simp only [h, dite_false, StrSet.has_iff, List.mem_append, List.mem_singleton]
    tauto

theorem StrSet.has_delete (s : StrSet) (x y : String) :
    (s.delete x).has y = true ↔ (y ≠ x ∧ s.has y = true) := by
  simp only [StrSet.has_iff, StrSet.delete]
  exact s.property.mem_erase_iff

theorem StrSet.add_of_has (s : StrSet) (x : String) (h : s.has x = true) : s.add x = s := by
  unfold StrSet.add
  rw [StrSet.has_iff] at h
  simp [h]

theorem StrSet.delete_of_not_has (s : StrSet) (x : String) (h : s.has x = false) :
    s.delete x = s := by
  apply StrSet.ext_val
  have hx : x ∉ s.val := by
    intro hm
    have := (StrSet.has_iff s x).2 hm
    simp [h] at this
  simp [StrSet.delete, List.erase_of_not_mem hx]

theorem StrSet.add_add (s : StrSet) (x : String) : (s.add x).add x = s.add x :=
  StrSet.add_of_has _ _ ((StrSet.has_add s x x).2 (Or.inl rfl))

theorem StrSet.delete_delete (s : StrSet) (x : String) :
    (s.delete x).delete x = s.delete x := by
  apply StrSet.delete_of_not_has
  cases hh : (s.delete x).has x
  · rfl
  · exact absurd rfl ((StrSet.has_delete s x x).1 hh).1

/-! ## Bin mutations: one step -/

theorem addToBin_none (s : State) (binKey : String) : addToBin s binKey none = s := rfl

theorem addToBin_emptyName (s : State) (binKey : String) : addToBin s binKey (some "") = s := by
  simp [addToBin]

theorem addToBin_toxic (s : State) (name : String) (hne : name ≠ "") :
    addToBin s "toxic" (some name) =
      { s with spellBin := s.spellBin.delete name, toxicBin := s.toxicBin.add name } := by
  simp [addToBin, hne]

theorem addToBin_other (s : State) (binKey name : String) (hk : binKey ≠ "toxic")
    (hne : name ≠ "") :
    addToBin s binKey (some name) =
      { s with toxicBin := s.toxicBin.delete name, spellBin := s.spellBin.add name } := by
  simp [addToBin, hne, hk]

theorem addToBin_falsy (s : State) (binKey : String) (cardName : Option String)
    (h : truthy cardName = false) : addToBin s binKey cardName = s := by
  cases cardName with
  | none => rfl
  | some name =>
    have hn : name = "" := by simpa [truthy] using h
    subst hn
    exact addToBin_emptyName s binKey

theorem addToBin_preserves_disjoint (s : State) (binKey : String) (cardName : Option String)
    (h : BinsDisjoint s) : BinsDisjoint (addToBin s binKey cardName) := by
  cases cardName with
  | none => exact h
  | some name =>
    by_cases hne : name = ""
    · subst hne
      rw [addToBin_emptyName]
      exact h
    · by_cases hk : binKey = "toxic"
      · subst hk
        rw [addToBin_toxic s name hne]
        intro n hn
        obtain ⟨ht, hs⟩ := hn
        simp only at ht hs
        rw [StrSet.has_add] at ht
        rw [StrSet.has_delete] at hs
        rcases ht with rfl | ht
        · exact hs.1 rfl
        · exact h n ⟨ht, hs.2⟩
      · rw [addToBin_other s binKey name hk hne]
        intro n hn
        obtain ⟨ht, hs⟩ := hn
        simp only at ht hs
        rw [StrSet.has_add] at hs
        rw [StrSet.has_delete] at ht
        rcases hs with rfl | hs
        · exact ht.1 rfl
        · exact h n ⟨ht.2, hs⟩

theorem binsDisjoint_initial : BinsDisjoint State.initial := by
  intro n hn
  simp [State.initial] at hn

/-- C1. Starting from a state whose bins are disjoint, after every finite sequence of
`addToBin(binKey, cardName)` calls, with arbitrary keys and names, no card name is a member
of both bins. -/
theorem addToBin_sequence_disjoint (s : State) (calls : List (String × Option String))
    (h : BinsDisjoint s) : BinsDisjoint (runAddToBin s calls) := by
  unfold runAddToBin
  induction calls generalizing s with
  | nil => exact h
  | cons c rest ih =>
    rw [List.foldl_cons]
    exact ih _ (addToBin_preserves_disjoint s c.1 c.2 h)

/-- Witness for C1: the initial (empty) state is disjoint, and so is the state after moving
one card from bin to bin, with an ignored call in between. -/
theorem addToBin_sequence_disjoint_witness :
    BinsDisjoint State.initial ∧
    BinsDisjoint (runAddToBin State.initial
      [("toxic", some "Zap"), ("spell", some "Zap"), ("toxic", none), ("other", some "Log"),
       ("toxic", some "Zap")]) :=
  ⟨binsDisjoint_initial, addToBin_sequence_disjoint State.initial _ binsDisjoint_initial⟩

/-- C2. `addToBin(binKey, cardName)` leaves the state unchanged when `cardName` is
`undefined` or empty. Otherwise the name is afterwards in the target bin (the toxic bin for
the key `"toxic"`, the spell bin for every other key) and not in the other bin, and every
other name is in a bin afterwards exactly when it was before. -/
theorem addToBin_result (s : State) (binKey : String) (cardName : Option String) :
    (truthy cardName = false → addToBin s binKey cardName = s) ∧
    (∀ name : String, cardName = some name → name ≠ "" →
      (binKey = "toxic" →
        (addToBin s binKey cardName).toxicBin.has name = true ∧
        (addToBin s binKey cardName).spellBin.has name = false) ∧
      (binKey ≠ "toxic" →
        (addToBin s binKey cardName).spellBin.has name = true ∧
        (addToBin s binKey cardName).toxicBin.has name = false) ∧
      (∀ other : String, other ≠ name →
        (addToBin s binKey cardName).toxicBin.has other = s.toxicBin.has other ∧
        (addToBin s binKey cardName).spellBin.has other = s.spellBin.has other)) := by
  refine ⟨addToBin_falsy s binKey cardName, ?_⟩
  intro name hc hne
  subst hc
  have hdel : ∀ (b : StrSet) (o : String), o ≠ name → (b.delete name).has o = b.has o := by
    intro b o ho
    rw [Bool.eq_iff_iff, StrSet.has_delete]
    exact ⟨fun hx => hx.2, fun hx => ⟨ho, hx⟩⟩
  have hadd : ∀ (b : StrSet) (o : String), o ≠ name → (b.add name).has o = b.has o := by
    intro b o ho
    rw [Bool.eq_iff_iff, StrSet.has_add]
    exact ⟨fun hx => hx.resolve_left ho, fun hx => Or.inr hx⟩
  have hself : ∀ b : StrSet, (b.delete name).has name = false := by
    intro b
    cases hh : (b.delete name).has name
    · rfl
    · exact absurd rfl ((StrSet.has_delete b name name).1 hh).1
  refine ⟨?_, ?_, ?_⟩
  · intro hk
    subst hk
    rw [addToBin_toxic s name hne]
    exact ⟨(StrSet.has_add _ _ _).2 (Or.inl rfl), hself _⟩
  · intro hk
    rw [addToBin_other s binKey name hk hne]
    exact ⟨(StrSet.has_add _ _ _).2 (Or.inl rfl), hself _⟩
  · intro other ho
    by_cases hk : binKey = "toxic"
    · subst hk
      rw [addToBin_toxic s name hne]
      exact ⟨hadd _ _ ho, hdel _ _ ho⟩
    · rw [addToBin_other s binKey name hk hne]
      exact ⟨hdel _ _ ho, hadd _ _ ho⟩

/-- Witness for C2: adding "Zap" to the toxic bin of the initial state. -/
theorem addToBin_result_witness :
    truthy (some "") = false ∧ addToBin State.initial "toxic" (some "") = State.initial ∧
    (addToBin State.initial "toxic" (some "Zap")).toxicBin.has "Zap" = true ∧
    (addToBin State.initial "toxic" (some "Zap")).spellBin.has "Zap" = false ∧
    (addToBin State.initial "spell" (some "Zap")).spellBin.has "Zap" = true ∧
    (addToBin State.initial "toxic" (some "Zap")).toxicBin.has "Log" =
      State.initial.toxicBin.has "Log" :=
  ⟨by decide,
   (addToBin_result State.initial "toxic" (some "")).1 (by decide),
   (((addToBin_result State.initial "toxic" (some "Zap")).2 "Zap" rfl (by decide)).1 rfl).1,
   (((addToBin_result State.initial "toxic" (some "Zap")).2 "Zap" rfl (by decide)).1 rfl).2,
   (((addToBin_result State.initial "spell" (some "Zap")).2 "Zap" rfl (by decide)).2.1
      (by decide)).1,
   (((addToBin_result State.initial "toxic" (some "Zap")).2 "Zap" rfl (by decide)).2.2
      "Log" (by decide)).1⟩

/-- C3. Calling `addToBin(binKey, cardName)` twice in a row gives the same state as calling
it once; and when the bins are disjoint, adding a card to the bin that already holds it
changes nothing. -/
theorem addToBin_idempotent (s : State) (binKey : String) (cardName : Option String) :
    addToBin (addToBin s binKey cardName) binKey cardName = addToBin s binKey cardName ∧
    (BinsDisjoint s → ∀ name : String, cardName = some name →
      (binKey = "toxic" → s.toxicBin.has name = true → addToBin s binKey cardName = s) ∧
      (binKey ≠ "toxic" → s.spellBin.has name = true → addToBin s binKey cardName = s)) := by
  constructor
  · cases cardName with
    | none => rfl
    | some name =>
      by_cases hne : name = ""
      · subst hne
        rw [addToBin_emptyName, addToBin_emptyName]
      · by_cases hk : binKey = "toxic"
        · subst hk
          rw [addToBin_toxic s name hne, addToBin_toxic _ name hne]
          simp only [StrSet.add_add, StrSet.delete_delete]
        · rw [addToBin_other s binKey name hk hne, addToBin_other _ binKey name hk hne]
          simp only [StrSet.add_add, StrSet.delete_delete]
  · intro hdis name hc
    subst hc
    by_cases hne : name = ""
    · subst hne
      exact ⟨fun _ _ => addToBin_emptyName s binKey, fun _ _ => addToBin_emptyName s binKey⟩
    · constructor
      · intro hk ht
        subst hk
        have hs : s.spellBin.has name = false := by
          cases hh : s.spellBin.has name
          · rfl
          · exact absurd ⟨ht, hh⟩ (hdis name)
        rw [addToBin_toxic s name hne, StrSet.add_of_has _ _ ht, StrSet.delete_of_not_has _ _ hs]
      · intro hk hs
        have ht : s.toxicBin.has name = false := by
          cases hh : s.toxicBin.has name
          · rfl
          · exact absurd ⟨hh, hs⟩ (hdis name)
        rw [addToBin_other s binKey name hk hne, StrSet.add_of_has _ _ hs,
          StrSet.delete_of_not_has _ _ ht]

/-- Witness for C3: "Zap" is already in the toxic bin of a disjoint state, and adding it to
the toxic bin again returns that state. -/
theorem addToBin_idempotent_witness :
    BinsDisjoint (addToBin State.initial "toxic" (some "Zap")) ∧
    (addToBin State.initial "toxic" (some "Zap")).toxicBin.has "Zap" = true ∧
    addToBin (addToBin State.initial "toxic" (some "Zap")) "toxic" (some "Zap") =
      addToBin State.initial "toxic" (some "Zap") :=
  ⟨addToBin_preserves_disjoint _ _ _ binsDisjoint_initial, by decide,
   ((addToBin_idempotent (addToBin State.initial "toxic" (some "Zap")) "toxic" (some "Zap")).2
      (addToBin_preserves_disjoint _ _ _ binsDisjoint_initial) "Zap" rfl).1 rfl (by decide)⟩

/-! ## Reset, clear, remove -/

theorem seedRow_toxic_has (s : State) (row : Card) (n : String) :
    (seedRow s row).toxicBin.has n = true ↔
      (s.toxicBin.has n = true ∨ (row.bin = some "toxic_troop" ∧ row.card_name = n)) := by
  unfold seedRow
  by_cases h1 : row.bin = some "toxic_troop"
  · simp only [h1, if_true, true_and, StrSet.has_add]
    constructor
    · rintro (h | h)
      · exact Or.inr h.symm
      · exact Or.inl h
    · rintro (h | h)
      · exact Or.inr h
      · exact Or.inl h.symm
  · by_cases h2 : row.bin = some "cheap_spell"
    · simp [h2]
    · simp [h1, h2]

theorem seedRow_spell_has (s : State) (row : Card) (n : String) :
    (seedRow s row).spellBin.has n = true ↔
      (s.spellBin.has n = true ∨ (row.bin = some "cheap_spell" ∧ row.card_name = n)) := by
  unfold seedRow
  by_cases h1 : row.bin = some "toxic_troop"
  · simp [h1]
  · by_cases h2 : row.bin = some "cheap_spell"
    · rw [if_neg h1, if_pos h2]
      simp only [StrSet.has_add]
      constructor
      · rintro (h | h)
        · exact Or.inr ⟨h2, h.symm⟩
        · exact Or.inl h
      · rintro (h | ⟨_, h⟩)
        · exact Or.inr h
        · exact Or.inl h.symm
    · simp [h1, h2]

theorem foldl_seedRow_toxic_has (cards : List Card) (s : State) (n : String) :
    (cards.foldl seedRow s).toxicBin.has n = true ↔
      (s.toxicBin.has n = true ∨
        ∃ r ∈ cards, r.bin = some "toxic_troop" ∧ r.card_name = n) := by
  induction cards generalizing s with
  | nil => simp
  | cons c rest ih =>
    rw [List.foldl_cons, ih, seedRow_toxic_has]
    simp only [List.mem_cons, exists_eq_or_imp]
    tauto

theorem foldl_seedRow_spell_has (cards : List Card) (s : State) (n : String) :
    (cards.foldl seedRow s).spellBin.has n = true ↔
      (s.spellBin.has n = true ∨
        ∃ r ∈ cards, r.bin = some "cheap_spell" ∧ r.card_name = n) := by
  induction cards generalizing s with
  | nil => simp
  | cons c rest ih =>
    rw [List.foldl_cons, ih, seedRow_spell_has]
    simp only [List.mem_cons, exists_eq_or_imp]
    tauto

theorem inferInitialBins_toxic_has (allCards : List Card) (s : State) (n : String) :
    (inferInitialBins allCards s).toxicBin.has n = true ↔
      ∃ r ∈ allCards, r.bin = some "toxic_troop" ∧ r.card_name = n := by
  unfold inferInitialBins
  rw [foldl_seedRow_toxic_has]
  simp

theorem inferInitialBins_spell_has (allCards : List Card) (s : State) (n : String) :
    (inferInitialBins allCards s).spellBin.has n = true ↔
      ∃ r ∈ allCards, r.bin = some "cheap_spell" ∧ r.card_name = n := by
  unfold inferInitialBins
  rw [foldl_seedRow_spell_has]
  simp

theorem foldl_seedRow_bins_congr (cards : List Card) (s₁ s₂ : State)
    (ht : s₁.toxicBin = s₂.toxicBin) (hs : s₁.spellBin = s₂.spellBin) :
    (cards.foldl seedRow s₁).toxicBin = (cards.foldl seedRow s₂).toxicBin ∧
    (cards.foldl seedRow s₁).spellBin = (cards.foldl seedRow s₂).spellBin := by
  induction cards generalizing s₁ s₂ with
  | nil => exact ⟨ht, hs⟩
  | cons c rest ih =>
    rw [List.foldl_cons, List.foldl_cons]
    apply ih
    · unfold seedRow
      split_ifs <;> simp [ht]
    · unfold seedRow
      split_ifs <;> simp [hs]

theorem unique_row_of_nodup_names {allCards : List Card}
    (hkey : (allCards.map Card.card_name).Nodup) {r₁ r₂ : Card}
    (h₁ : r₁ ∈ allCards) (h₂ : r₂ ∈ allCards) (hn : r₁.card_name = r₂.card_name) : r₁ = r₂ :=
  List.inj_on_of_nodup_map hkey h₁ h₂ hn

/-- C4. After `inferInitialBins()` (the reset) the toxic bin holds exactly the names of the
rows whose `bin` is `"toxic_troop"`, the spell bin exactly the names of the rows whose `bin`
is `"cheap_spell"`; a name none of whose rows declares one of the two groups is in neither
bin (with unique names: the name of any row with another or no default); and the bins do not
depend on the state before the reset. -/
theorem inferInitialBins_spec (allCards : List Card) (s : State) :
    (∀ n : String, (inferInitialBins allCards s).toxicBin.has n = true ↔
        ∃ r ∈ allCards, r.bin = some "toxic_troop" ∧ r.card_name = n) ∧
    (∀ n : String, (inferInitialBins allCards s).spellBin.has n = true ↔
        ∃ r ∈ allCards, r.bin = some "cheap_spell" ∧ r.card_name = n) ∧
    (∀ n : String,
        (∀ r ∈ allCards, r.card_name = n →
          r.bin ≠ some "toxic_troop" ∧ r.bin ≠ some "cheap_spell") →
        (inferInitialBins allCards s).toxicBin.has n = false ∧
        (inferInitialBins allCards s).spellBin.has n = false) ∧
    ((allCards.map Card.card_name).Nodup →
        ∀ r ∈ allCards, r.bin ≠ some "toxic_troop" → r.bin ≠ some "cheap_spell" →
        (inferInitialBins allCards s).toxicBin.has r.card_name = false ∧
        (inferInitialBins allCards s).spellBin.has r.card_name = false) ∧
    (∀ s₂ : State,
        (inferInitialBins allCards s).toxicBin = (inferInitialBins allCards s₂).toxicBin ∧
        (inferInitialBins allCards s).spellBin = (inferInitialBins allCards s₂).spellBin) := by
  have hneither : ∀ n : String,
      (∀ r ∈ allCards, r.card_name = n →
        r.bin ≠ some "toxic_troop" ∧ r.bin ≠ some "cheap_spell") →
      (inferInitialBins allCards s).toxicBin.has n = false ∧
      (inferInitialBins allCards s).spellBin.has n = false := by
    intro n hn
    constructor
    · cases hh : (inferInitialBins allCards s).toxicBin.has n
      · rfl
      · obtain ⟨r, hr, hb, hnm⟩ := (inferInitialBins_toxic_has allCards s n).1 hh
        exact absurd hb (hn r hr hnm).1
    · cases hh : (inferInitialBins allCards s).spellBin.has n
      · rfl
      · obtain ⟨r, hr, hb, hnm⟩ := (inferInitialBins_spell_has allCards s n).1 hh
        exact absurd hb (hn r hr hnm).2
  refine ⟨inferInitialBins_toxic_has allCards s, inferInitialBins_spell_has allCards s,
    hneither, ?_, ?_⟩
  · intro hkey r hr h1 h2
    apply hneither
    intro r' hr' hnm
    have : r' = r := unique_row_of_nodup_names hkey hr' hr hnm
    subst this
    exact ⟨h1, h2⟩
  · intro s₂
    unfold inferInitialBins
    exact foldl_seedRow_bins_congr allCards _ _ rfl rfl

/-- Witness for C4: on the sample catalog (unique names), "Mirror" has no default group and
is in neither bin after a reset from a state that held it. -/
theorem inferInitialBins_spec_witness :
    (sampleCatalog.map Card.card_name).Nodup ∧
    (inferInitialBins sampleCatalog
        (addToBin State.initial "toxic" (some "Mirror"))).toxicBin.has "Mirror" = false ∧
    (inferInitialBins sampleCatalog
        (addToBin State.initial "toxic" (some "Mirror"))).spellBin.has "Mirror" = false ∧
    (inferInitialBins sampleCatalog
        (addToBin State.initial "toxic" (some "Mirror"))).toxicBin.has "Golem" = false :=
  ⟨by decide,
   ((inferInitialBins_spec sampleCatalog (addToBin State.initial "toxic" (some "Mirror"))).2.2.2.1
      (by decide)
      { card_name := "Mirror", bin := none, elixir := NumField.null, rarity := some "Epic",
        card_type := some "Spell", overall_count := none, stats := [] }
      (by decide) (by decide) (by decide)).1,
   ((inferInitialBins_spec sampleCatalog (addToBin State.initial "toxic" (some "Mirror"))).2.2.2.1
      (by decide)
      { card_name := "Mirror", bin := none, elixir := NumField.null, rarity := some "Epic",
        card_type := some "Spell", overall_count := none, stats := [] }
      (by decide) (by decide) (by decide)).2,
   ((inferInitialBins_spec sampleCatalog (addToBin State.initial "toxic" (some "Mirror"))).2.2.1
      "Golem" (by decide)).1⟩

theorem inferInitialBins_disjoint (allCards : List Card) (s : State)
    (hkey : (allCards.map Card.card_name).Nodup) :
    BinsDisjoint (inferInitialBins allCards s) := by
  intro n hn
  obtain ⟨r₁, hr₁, hb₁, hn₁⟩ := (inferInitialBins_toxic_has allCards s n).1 hn.1
  obtain ⟨r₂, hr₂, hb₂, hn₂⟩ := (inferInitialBins_spell_has allCards s n).1 hn.2
  have : r₁ = r₂ := unique_row_of_nodup_names hkey hr₁ hr₂ (hn₁.trans hn₂.symm)
  subst this
  rw [hb₁] at hb₂
  exact absurd hb₂ (by decide)

theorem inferInitialBins_disjoint_of_separate (allCards : List Card) (s : State)
    (hsep : ∀ r₁ ∈ allCards, ∀ r₂ ∈ allCards, r₁.bin = some "toxic_troop" →
      r₂.bin = some "cheap_spell" → r₁.card_name ≠ r₂.card_name) :
    BinsDisjoint (inferInitialBins allCards s) := by
  intro n hn
  obtain ⟨r₁, hr₁, hb₁, hn₁⟩ := (inferInitialBins_toxic_has allCards s n).1 hn.1
  obtain ⟨r₂, hr₂, hb₂, hn₂⟩ := (inferInitialBins_spell_has allCards s n).1 hn.2
  exact hsep r₁ hr₁ r₂ hr₂ hb₁ hb₂ (hn₁.trans hn₂.symm)

/-- C5, counterexample: over the catalog with the rows `A, toxic_troop` and
`A, cheap_spell` the reset puts "A" into both bins, so the bins are not disjoint. -/
theorem inferInitialBins_conflict_counterexample :
    (inferInitialBins conflictCatalog State.initial).toxicBin.toList = ["A"] ∧
    (inferInitialBins conflictCatalog State.initial).spellBin.toList = ["A"] ∧
    (inferInitialBins conflictCatalog State.initial).toxicBin.has "A" = true ∧
    (inferInitialBins conflictCatalog State.initial).spellBin.has "A" = true ∧
    ¬ BinsDisjoint (inferInitialBins conflictCatalog State.initial) := by
  refine ⟨by decide, by decide, by decide, by decide, ?_⟩
  intro h
  exact h "A" ⟨by decide, by decide⟩

/-- C5, amended. Over a catalog in which no card name is declared a toxic troop by one row
and a cheap spell by another (in particular over a catalog whose card names are unique) the
bins after `inferInitialBins()` are disjoint whatever the prior state; after "Clear both
bins" both bins are empty, hence disjoint; and removing a name from disjoint bins deletes
it from the named bin only and leaves the bins disjoint. -/
theorem other_mutations_disjoint :
    (∀ (allCards : List Card) (s : State),
        (∀ r₁ ∈ allCards, ∀ r₂ ∈ allCards, r₁.bin = some "toxic_troop" →
          r₂.bin = some "cheap_spell" → r₁.card_name ≠ r₂.card_name) →
        BinsDisjoint (inferInitialBins allCards s)) ∧
    (∀ (allCards : List Card) (s : State), (allCards.map Card.card_name).Nodup →
        BinsDisjoint (inferInitialBins allCards s)) ∧
    (∀ s : State, (clearAll s).toxicBin.toList = [] ∧ (clearAll s).spellBin.toList = [] ∧
        BinsDisjoint (clearAll s)) ∧
    (∀ (s : State) (bin d : String), BinsDisjoint s →
        BinsDisjoint (removeFromBin s bin d) ∧
        (bin = "toxic" →
          (∀ n : String, (removeFromBin s bin d).toxicBin.has n = true ↔
            (n ≠ d ∧ s.toxicBin.has n = true)) ∧
          (removeFromBin s bin d).spellBin = s.spellBin) ∧
        (bin ≠ "toxic" →
          (∀ n : String, (removeFromBin s bin d).spellBin.has n = true ↔
            (n ≠ d ∧ s.spellBin.has n = true)) ∧
          (removeFromBin s bin d).toxicBin = s.toxicBin)) := by
  refine ⟨inferInitialBins_disjoint_of_separate, inferInitialBins_disjoint, ?_, ?_⟩
  · intro s
    refine ⟨rfl, rfl, ?_⟩
    intro n hn
    simp [clearAll] at hn
  · intro s bin d hdis
    by_cases hk : bin = "toxic"
    · subst hk
      have hrm : removeFromBin s "toxic" d = { s with toxicBin := s.toxicBin.delete d } := by
        simp [removeFromBin]
      rw [hrm]
      refine ⟨?_, fun _ => ⟨fun n => StrSet.has_delete _ _ _, rfl⟩, fun h => absurd rfl h⟩
      intro n hn
      exact hdis n ⟨((StrSet.has_delete _ _ _).1 hn.1).2, hn.2⟩
    · have hrm : removeFromBin s bin d = { s with spellBin := s.spellBin.delete d } := by
        simp [removeFromBin, hk]
      rw [hrm]
      refine ⟨?_, fun h => absurd h hk, fun _ => ⟨fun n => StrSet.has_delete _ _ _, rfl⟩⟩
      intro n hn
      exact hdis n ⟨hn.1, ((StrSet.has_delete _ _ _).1 hn.2).2⟩

/-- Witness for C5 (amended): in the sample catalog no name is declared in both groups (its
names are unique), so a reset gives disjoint bins; removing "Skeleton Army" from the toxic
bin of that state leaves the bins disjoint and the spell bin untouched. -/
theorem other_mutations_disjoint_witness :
    (∀ r₁ ∈ sampleCatalog, ∀ r₂ ∈ sampleCatalog, r₁.bin = some "toxic_troop" →
      r₂.bin = some "cheap_spell" → r₁.card_name ≠ r₂.card_name) ∧
    (sampleCatalog.map Card.card_name).Nodup ∧
    BinsDisjoint (inferInitialBins sampleCatalog State.initial) ∧
    BinsDisjoint (inferInitialBins sampleCatalog (addToBin State.initial "spell" (some "Zap"))) ∧
    BinsDisjoint (removeFromBin (inferInitialBins sampleCatalog State.initial)
      "toxic" "Skeleton Army") ∧
    (removeFromBin (inferInitialBins sampleCatalog State.initial) "toxic"
      "Skeleton Army").spellBin = (inferInitialBins sampleCatalog State.initial).spellBin :=
  ⟨by decide, by decide,
   other_mutations_disjoint.1 sampleCatalog State.initial (by decide),
   other_mutations_disjoint.2.1 sampleCatalog _ (by decide),
   (other_mutations_disjoint.2.2.2 (inferInitialBins sampleCatalog State.initial) "toxic"
      "Skeleton Army" (other_mutations_disjoint.1 sampleCatalog State.initial (by decide))).1,
   ((other_mutations_disjoint.2.2.2 (inferInitialBins sampleCatalog State.initial) "toxic"
      "Skeleton Army"
      (other_mutations_disjoint.1 sampleCatalog State.initial (by decide))).2.1 rfl).2⟩

/-! ## Stable sorting and filtering -/

section StableSort

variable {α : Type} (r : α → α → Prop) [DecidableRel r]

theorem orderedInsert_of_forall_rel (a : α) (l : List α) (h : ∀ c ∈ l, r a c) :
    l.orderedInsert r a = a :: l := by
  cases l with
  | nil => rfl
  | cons b t => exact List.orderedInsert_of_le r t (h b (List.mem_cons_self b t))

theorem filter_orderedInsert [IsTrans α r] (p : α → Bool) (a : α) (l : List α)
    (hl : l.Sorted r) :
    (l.orderedInsert r a).filter p =
      if p a = true then (l.filter p).orderedInsert r a else l.filter p := by
  induction l with
  | nil =>
    by_cases hp : p a = true
    · simp [hp]
    · simp [hp]
  | cons b t ih =>
    have hbt : ∀ c ∈ t, r b c := List.rel_of_sorted_cons hl
    have ht : t.Sorted r := List.Sorted.of_cons hl
    by_cases hab : r a b
    · rw [List.orderedInsert_of_le r t hab]
      by_cases hp : p a = true
      · rw [if_pos hp, List.filter_cons_of_pos hp]
        symm
        apply orderedInsert_of_forall_rel
        intro c hc
        have hc' : c ∈ b :: t := List.mem_of_mem_filter hc
        rcases List.mem_cons.1 hc' with rfl | hct
        · exact hab
        · exact IsTrans.trans _ _ _ hab (hbt c hct)
      · rw [if_neg hp, List.filter_cons_of_neg hp]
    · have hins : (b :: t).orderedInsert r a = b :: t.orderedInsert r a := by
        simp [List.orderedInsert, hab]
      rw [hins]
      by_cases hpb : p b = true
      · rw [List.filter_cons_of_pos hpb, ih ht, List.filter_cons_of_pos hpb]
        by_cases hp : p a = true
        · simp [hp, List.orderedInsert, hab]
        · simp [hp]
      · rw [List.filter_cons_of_neg hpb, ih ht, List.filter_cons_of_neg hpb]

theorem filter_insertionSort [IsTotal α r] [IsTrans α r] (p : α → Bool) (l : List α) :
    (l.insertionSort r).filter p = (l.filter p).insertionSort r := by
  induction l with
  | nil => rfl
  | cons a t ih =>
    rw [List.insertionSort_cons_eq_take_drop]
    rw [← List.orderedInsert_eq_take_drop]
    rw [filter_orderedInsert r p a _ (List.sorted_insertionSort r t), ih]
    by_cases hp : p a = true
    · rw [if_pos hp, List.filter_cons_of_pos hp]
      rfl
    · rw [if_neg hp, List.filter_cons_of_neg hp]

end StableSort

/-! ## Search filter -/

theorem filterCards_eq_filter (env : Env) (allCards : List Card) (arena : Option String)
    (f : Filters) : filterCards env allCards arena f = allCards.filter (passes env arena f) := by
  unfold filterCards
  simp only []
  have hp : passes env arena f = fun row => passes env arena f row := rfl
  rw [hp]
  unfold passes
  by_cases h1 : truthy arena = true <;> by_cases h2 : env.toLowerCase f.searchValue = "" <;>
    by_cases h3 : f.elixirFilter = "" <;> by_cases h4 : f.rarityFilter = "" <;>
    by_cases h5 : f.typeFilter = "" <;>
    simp [h1, h2, h3, h4, h5, List.filter_filter, Bool.and_comm, Bool.and_left_comm]

theorem getFilteredCards_eq (env : Env) (allCards : List Card) (arena : Option String)
    (f : Filters) :
    getFilteredCards env allCards arena f =
      (allCards.filter (passes env arena f)).insertionSort (winsDesc env arena) := by
  unfold getFilteredCards
  rw [filterCards_eq_filter]

theorem mem_getFilteredCards (env : Env) (allCards : List Card) (arena : Option String)
    (f : Filters) (c : Card) :
    c ∈ getFilteredCards env allCards arena f ↔ (c ∈ allCards ∧ passes env arena f c = true) := by
  rw [getFilteredCards_eq, List.mem_insertionSort, List.mem_filter]

/-- C6. With an arena selected, every card returned by `getFilteredCards` has a strictly
positive win count in that arena, and every catalog card whose win count there is not
strictly positive is missing from the result; the bins are not consulted at all. -/
theorem getFilteredCards_positive_wins (env : Env) (allCards : List Card)
    (arena : Option String) (f : Filters) (harena : truthy arena = true) :
    (∀ c ∈ getFilteredCards env allCards arena f, 0 < env.getWinsForArena c arena) ∧
    (∀ c ∈ allCards, ¬ 0 < env.getWinsForArena c arena →
        c ∉ getFilteredCards env allCards arena f) := by
  have key : ∀ c, passes env arena f c = true → 0 < env.getWinsForArena c arena := by
    intro c hc
    unfold passes at hc
    simp only [harena, Bool.not_true, Bool.false_or, Bool.and_eq_true, decide_eq_true_eq] at hc
    exact hc.1.1.1.1
  constructor
  · intro c hc
    exact key c ((mem_getFilteredCards env allCards arena f c).1 hc).2
  · intro c _ hw hc
    exact hw (key c ((mem_getFilteredCards env allCards arena f c).1 hc).2)

/-- Witness for C6: in "Legendary Arena" the sample card "Mirror" has no wins and is not
among the search results. -/
theorem getFilteredCards_positive_wins_witness :
    truthy (some "Legendary Arena") = true ∧
    ¬ 0 < sampleEnv.getWinsForArena
      { card_name := "Mirror", bin := none, elixir := NumField.null, rarity := some "Epic",
        card_type := some "Spell", overall_count := none, stats := [] }
      (some "Legendary Arena") ∧
    ({ card_name := "Mirror", bin := none, elixir := NumField.null, rarity := some "Epic",
       card_type := some "Spell", overall_count := none, stats := [] } : Card) ∉
      getFilteredCards sampleEnv sampleCatalog (some "Legendary Arena") noFilters :=
  ⟨by decide, by decide,
   (getFilteredCards_positive_wins sampleEnv sampleCatalog (some "Legendary Arena") noFilters
      (by decide)).2 _ (by decide) (by decide)⟩

theorem getFilteredCards_sublist_of_imp (env : Env) (allCards : List Card)
    (arena : Option String) (f g : Filters)
    (h : ∀ c, passes env arena g c = true → passes env arena f c = true) :
    (getFilteredCards env allCards arena g).Sublist (getFilteredCards env allCards arena f) := by
  rw [getFilteredCards_eq, getFilteredCards_eq]
  have hfg : allCards.filter (passes env arena g) =
      (allCards.filter (passes env arena f)).filter (passes env arena g) := by
    rw [List.filter_filter]
    apply List.filter_congr
    intro c _
    cases hg : passes env arena g c
    · simp
    · simp [h c hg]
  rw [hfg, ← filter_insertionSort]
  exact List.filter_sublist _

/-- C8. Setting one facet (elixir, rarity or type) that was empty, everything else fixed,
gives a `getFilteredCards` result that is a subsequence of the result before the change,
so its count is not larger. -/
theorem getFilteredCards_facet_monotone (env : Env) (allCards : List Card)
    (arena : Option String) (f : Filters) (v : String) :
    (f.elixirFilter = "" →
      (getFilteredCards env allCards arena { f with elixirFilter := v }).Sublist
        (getFilteredCards env allCards arena f) ∧
      (getFilteredCards env allCards arena { f with elixirFilter := v }).length ≤
        (getFilteredCards env allCards arena f).length) ∧
    (f.rarityFilter = "" →
      (getFilteredCards env allCards arena { f with rarityFilter := v }).Sublist
        (getFilteredCards env allCards arena f) ∧
      (getFilteredCards env allCards arena { f with rarityFilter := v }).length ≤
        (getFilteredCards env allCards arena f).length) ∧
    (f.typeFilter = "" →
      (getFilteredCards env allCards arena { f with typeFilter := v }).Sublist
        (getFilteredCards env allCards arena f) ∧
      (getFilteredCards env allCards arena { f with typeFilter := v }).length ≤
        (getFilteredCards env allCards arena f).length) := by
  refine ⟨fun h => ?_, fun h => ?_, fun h => ?_⟩
  · have hs := getFilteredCards_sublist_of_imp env allCards arena f
      { f with elixirFilter := v } (by
        intro c hc
        unfold passes at hc ⊢
        simp only [Bool.and_eq_true] at hc ⊢
        refine ⟨⟨⟨hc.1.1.1, ?_⟩, hc.1.2⟩, hc.2⟩
        simp [h])
    exact ⟨hs, hs.length_le⟩
  · have hs := getFilteredCards_sublist_of_imp env allCards arena f
      { f with rarityFilter := v } (by
        intro c hc
        unfold passes at hc ⊢
        simp only [Bool.and_eq_true] at hc ⊢
        refine ⟨⟨hc.1.1, ?_⟩, hc.2⟩
        simp [h])
    exact ⟨hs, hs.length_le⟩
  · have hs := getFilteredCards_sublist_of_imp env allCards arena f
      { f with typeFilter := v } (by
        intro c hc
        unfold passes at hc ⊢
        simp only [Bool.and_eq_true] at hc ⊢
        refine ⟨hc.1, ?_⟩
        simp [h])
    exact ⟨hs, hs.length_le⟩

/-- Witness for C8: on the sample catalog, choosing the rarity "Epic" while every facet was
empty gives a subsequence of the unfiltered result. -/
theorem getFilteredCards_facet_monotone_witness :
    noFilters.rarityFilter = "" ∧
    (getFilteredCards sampleEnv sampleCatalog (some "Legendary Arena")
        { noFilters with rarityFilter := "Epic" }).Sublist
      (getFilteredCards sampleEnv sampleCatalog (some "Legendary Arena") noFilters) ∧
    (getFilteredCards sampleEnv sampleCatalog (some "Legendary Arena")
        { noFilters with rarityFilter := "Epic" }).length ≤
      (getFilteredCards sampleEnv sampleCatalog (some "Legendary Arena") noFilters).length :=
  ⟨rfl,
   (getFilteredCards_facet_monotone sampleEnv sampleCatalog (some "Legendary Arena") noFilters
      "Epic").2.1 rfl⟩

/-- C9. The result of `getFilteredCards` is a rearrangement of the cards that pass the
filters, ordered by non-increasing win count in the selected arena; the result cards with
any one win count stand in the same relative order as in the catalog (the sort is stable);
and what is displayed is the first `min 40 n` cards of the result, in order. -/
theorem getFilteredCards_sorted_stable (env : Env) (allCards : List Card)
    (arena : Option String) (f : Filters) :
    List.Pairwise (fun a b => env.getWinsForArena b arena ≤ env.getWinsForArena a arena)
      (getFilteredCards env allCards arena f) ∧
    (getFilteredCards env allCards arena f).Perm (filterCards env allCards arena f) ∧
    (∀ w : Int,
      (getFilteredCards env allCards arena f).filter
          (fun c => decide (env.getWinsForArena c arena = w)) =
        (filterCards env allCards arena f).filter
          (fun c => decide (env.getWinsForArena c arena = w))) ∧
    (∀ w : Int,
      ((getFilteredCards env allCards arena f).filter
          (fun c => decide (env.getWinsForArena c arena = w))).Sublist allCards) ∧
    shownCards env allCards arena f =
      (getFilteredCards env allCards arena f).take
        (min 40 (getFilteredCards env allCards arena f).length) ∧
    (shownCards env allCards arena f).length =
      min 40 (getFilteredCards env allCards arena f).length ∧
    (shownCards env allCards arena f) <+: (getFilteredCards env allCards arena f) := by
  have hstable : ∀ w : Int,
      (getFilteredCards env allCards arena f).filter
          (fun c => decide (env.getWinsForArena c arena = w)) =
        (filterCards env allCards arena f).filter
          (fun c => decide (env.getWinsForArena c arena = w)) := by
    intro w
    unfold getFilteredCards
    rw [filter_insertionSort]
    apply List.Sorted.insertionSort_eq
    apply List.pairwise_of_forall_mem_list
    intro a ha b hb
    have ha' := (List.mem_filter.1 ha).2
    have hb' := (List.mem_filter.1 hb).2
    simp only [decide_eq_true_eq] at ha' hb'
    show env.getWinsForArena b arena ≤ env.getWinsForArena a arena
    rw [ha', hb']
  refine ⟨?_, ?_, hstable, ?_, ?_, ?_, ?_⟩
  · exact List.sorted_insertionSort (winsDesc env arena) _
  · exact List.perm_insertionSort (winsDesc env arena) _
  · intro w
    rw [hstable w, filterCards_eq_filter]
    exact (List.filter_sublist _).trans (List.filter_sublist _)
  · unfold shownCards
    rcases Nat.le_total 40 (getFilteredCards env allCards arena f).length with h | h
    · rw [Nat.min_eq_left h]
    · rw [Nat.min_eq_right h, List.take_of_length_le h, List.take_of_length_le (le_refl _)]
  · unfold shownCards
    exact List.length_take _ _
  · exact List.take_prefix _ _

theorem includes_empty (t : String) : includes t "" = true := by
  unfold includes
  simp

/-- What `getFilteredCards` does for a catalog card with wins in the arena: it is kept when
the text term matches and every non-empty facet matches, the elixir facet by
`Number(row.elixir) === Number(elixirFilter)`. A row whose `elixir` is `undefined` fails
every non-empty elixir facet; a row whose `elixir` is `null` counts as elixir `0`. -/
theorem getFilteredCards_membership (env : Env) (allCards : List Card)
    (arena : Option String) (f : Filters) (c : Card)
    (hlow : env.toLowerCase "" = "") (hc : c ∈ allCards)
    (hw : 0 < env.getWinsForArena c arena) :
    (c ∈ getFilteredCards env allCards arena f ↔
      ((f.searchValue = "" ∨
          includes (env.toLowerCase c.card_name) (env.toLowerCase f.searchValue) = true ∨
          includes (env.toLowerCase (c.card_type.getD "")) (env.toLowerCase f.searchValue)
            = true ∨
          includes (env.toLowerCase (c.rarity.getD "")) (env.toLowerCase f.searchValue)
            = true) ∧
        (f.rarityFilter = "" ∨ c.rarity = some f.rarityFilter) ∧
        (f.typeFilter = "" ∨ c.card_type = some f.typeFilter) ∧
        (f.elixirFilter = "" ∨
          ∃ n : Int, c.elixir.toNumber = some n ∧ env.toNumber f.elixirFilter = some n))) ∧
    (c.elixir = NumField.undefined → f.elixirFilter ≠ "" →
      c ∉ getFilteredCards env allCards arena f) ∧
    (c.elixir = NumField.null → f.elixirFilter ≠ "" →
      (f.searchValue = "" ∧ f.rarityFilter = "" ∧ f.typeFilter = "") →
      (c ∈ getFilteredCards env allCards arena f ↔ env.toNumber f.elixirFilter = some 0)) := by
  have hterm : (decide (env.toLowerCase f.searchValue = "") ||
        matchesTerm env (env.toLowerCase f.searchValue) c) = true ↔
      (f.searchValue = "" ∨
        includes (env.toLowerCase c.card_name) (env.toLowerCase f.searchValue) = true ∨
        includes (env.toLowerCase (c.card_type.getD "")) (env.toLowerCase f.searchValue)
          = true ∨
        includes (env.toLowerCase (c.rarity.getD "")) (env.toLowerCase f.searchValue)
          = true) := by
    unfold matchesTerm
    simp only [Bool.or_eq_true, decide_eq_true_eq]
    constructor
    · rintro (h | (h | h) | h)
      · rw [h]
        exact Or.inr (Or.inl (includes_empty _))
      · exact Or.inr (Or.inl h)
      · exact Or.inr (Or.inr (Or.inl h))
      · exact Or.inr (Or.inr (Or.inr h))
    · rintro (h | h | h | h)
      · rw [h, hlow]
        exact Or.inl rfl
      · exact Or.inr (Or.inl (Or.inl h))
      · exact Or.inr (Or.inl (Or.inr h))
      · exact Or.inr (Or.inr h)
  have hnum : ∀ a b : Option Int,
      numStrictEq a b = true ↔ ∃ n : Int, a = some n ∧ b = some n := by
    intro a b
    cases a with
    | none => cases b <;> simp [numStrictEq]
    | some x =>
      cases b with
      | none => simp [numStrictEq]
      | some y =>
        simp only [numStrictEq, beq_iff_eq, Option.some.injEq]
        constructor
        · intro h
          exact ⟨x, rfl, h.symm⟩
        · rintro ⟨n, h1, h2⟩
          rw [h1, h2]
  have hmem : c ∈ getFilteredCards env allCards arena f ↔
      ((f.searchValue = "" ∨
          includes (env.toLowerCase c.card_name) (env.toLowerCase f.searchValue) = true ∨
          includes (env.toLowerCase (c.card_type.getD "")) (env.toLowerCase f.searchValue)
            = true ∨
          includes (env.toLowerCase (c.rarity.getD "")) (env.toLowerCase f.searchValue)
            = true) ∧
        (f.rarityFilter = "" ∨ c.rarity = some f.rarityFilter) ∧
        (f.typeFilter = "" ∨ c.card_type = some f.typeFilter) ∧
        (f.elixirFilter = "" ∨
          ∃ n : Int, c.elixir.toNumber = some n ∧ env.toNumber f.elixirFilter = some n)) := by
    have hA : (!truthy arena || decide (env.getWinsForArena c arena > 0)) = true := by
      rw [Bool.or_eq_true]
      exact Or.inr (decide_eq_true hw)
    have hC : (decide (f.elixirFilter = "") ||
          numStrictEq c.elixir.toNumber (env.toNumber f.elixirFilter)) = true ↔
        (f.elixirFilter = "" ∨
          ∃ n : Int, c.elixir.toNumber = some n ∧ env.toNumber f.elixirFilter = some n) := by
      rw [Bool.or_eq_true, decide_eq_true_eq, hnum]
    have hD : (decide (f.rarityFilter = "") || decide (c.rarity = some f.rarityFilter)) = true ↔
        (f.rarityFilter = "" ∨ c.rarity = some f.rarityFilter) := by
      rw [Bool.or_eq_true, decide_eq_true_eq, decide_eq_true_eq]
    have hE : (decide (f.typeFilter = "") || decide (c.card_type = some f.typeFilter)) = true ↔
        (f.typeFilter = "" ∨ c.card_type = some f.typeFilter) := by
      rw [Bool.or_eq_true, decide_eq_true_eq, decide_eq_true_eq]
    rw [mem_getFilteredCards]
    unfold passes
    rw [Bool.and_eq_true, Bool.and_eq_true, Bool.and_eq_true, Bool.and_eq_true, hterm, hC, hD, hE]
    constructor
    · rintro ⟨_, ⟨⟨⟨_, h2⟩, h3⟩, h4⟩, h5⟩
      exact ⟨h2, h4, h5, h3⟩
    · rintro ⟨h2, h4, h5, h3⟩
      exact ⟨hc, ⟨⟨⟨hA, h2⟩, h3⟩, h4⟩, h5⟩
  refine ⟨hmem, ?_, ?_⟩
  · intro hu hne hin
    rcases (hmem.1 hin).2.2.2 with h | ⟨n, h, _⟩
    · exact hne h
    · rw [hu] at h
      simp [NumField.toNumber] at h
  · intro hnull hne hrest
    rw [hmem, hnull]
    constructor
    · rintro ⟨_, _, _, h⟩
      rcases h with h | ⟨n, h0, hn⟩
      · exact absurd h hne
      · have h0' : (0 : Int) = n := by simpa [NumField.toNumber] using h0
        rw [hn, ← h0']
    · intro h
      exact ⟨Or.inl hrest.1, Or.inl hrest.2.1, Or.inl hrest.2.2, Or.inr ⟨0, rfl, h⟩⟩

/-- C7, evaluated at the failing input: with the elixir facet on "0", `getFilteredCards`
returns "Mirror", whose `elixir` is `null`, next to the card that costs 0 elixir, because
`Number(null) === Number("0")`. -/
theorem getFilteredCards_null_elixir_kept :
    (nullElixirCatalog.map Card.elixir = [NumField.null, NumField.num 0]) ∧
    (getFilteredCards sampleEnv nullElixirCatalog (some "Legendary Arena")
      { noFilters with elixirFilter := "0" }).map Card.card_name =
        ["Training Dummy", "Mirror"] := by
  decide

/-! ## Chart data -/

theorem foldl_lookup_some (name : String) (cards : List Card) (acc : Option Card) (row : Card)
    (h : cards.foldl (fun acc r => if r.card_name = name then some r else acc) acc = some row) :
    (row ∈ cards ∧ row.card_name = name) ∨ acc = some row := by
  induction cards generalizing acc with
  | nil => exact Or.inr h
  | cons c rest ih =>
    rw [List.foldl_cons] at h
    rcases ih _ h with ⟨hm, hn⟩ | hacc
    · exact Or.inl ⟨List.mem_cons_of_mem c hm, hn⟩
    · by_cases hc : c.card_name = name
      · rw [if_pos hc] at hacc
        have : c = row := Option.some.inj hacc
        subst this
        exact Or.inl ⟨List.mem_cons_self _ _, hc⟩
      · rw [if_neg hc] at hacc
        exact Or.inr hacc

theorem foldl_lookup_none (name : String) (cards : List Card) (acc : Option Card) :
    cards.foldl (fun acc r => if r.card_name = name then some r else acc) acc = none ↔
      (acc = none ∧ ∀ r ∈ cards, r.card_name ≠ name) := by
  induction cards generalizing acc with
  | nil => simp
  | cons c rest ih =>
    rw [List.foldl_cons, ih]
    by_cases hc : c.card_name = name
    · simp [hc]
    · simp only [if_neg hc, List.mem_cons, forall_eq_or_imp]
      constructor
      · rintro ⟨h1, h2⟩
        exact ⟨h1, hc, h2⟩
      · rintro ⟨h1, _, h2⟩
        exact ⟨h1, h2⟩

theorem byNameGet_some (allCards : List Card) (name : String) (row : Card)
    (h : byNameGet allCards name = some row) : row ∈ allCards ∧ row.card_name = name := by
  rcases foldl_lookup_some name allCards none row h with h' | h'
  · exact h'
  · exact absurd h' (by simp)

theorem byNameGet_none (allCards : List Card) (name : String) :
    byNameGet allCards name = none ↔ ∀ r ∈ allCards, r.card_name ≠ name := by
  unfold byNameGet
  rw [foldl_lookup_none]
  simp

theorem byNameGet_of_mem (allCards : List Card) (hkey : (allCards.map Card.card_name).Nodup)
    (row : Card) (hrow : row ∈ allCards) : byNameGet allCards row.card_name = some row := by
  cases hg : byNameGet allCards row.card_name with
  | none => exact absurd rfl ((byNameGet_none allCards row.card_name).1 hg row hrow)
  | some r =>
    have hr := byNameGet_some allCards row.card_name r hg
    rw [unique_row_of_nodup_names hkey hr.1 hrow hr.2]

theorem addDatum_eq_some (env : Env) (allCards : List Card) (arena : Option String)
    (name bin : String) (d : Datum) :
    addDatum env allCards arena name bin = some d ↔
      ∃ row, byNameGet allCards name = some row ∧ 0 < env.getWinsForArena row arena ∧
        d = { card_name := name, wins := env.getWinsForArena row arena,
              win_rate := winRateFor env row arena (env.getWinsForArena row arena),
              bin := bin } := by
  unfold addDatum
  cases hg : byNameGet allCards name with
  | none => simp
  | some row =>
    simp only [Option.some.injEq, exists_eq_left']
    by_cases hw : env.getWinsForArena row arena ≤ 0
    · simp [hw, not_lt.2 hw]
    · simp only [if_neg hw, Option.some.injEq, not_le.1 hw, true_and]
      exact eq_comm

theorem addDatum_name (env : Env) (allCards : List Card) (arena : Option String)
    (name bin : String) (d : Datum) (h : addDatum env allCards arena name bin = some d) :
    d.card_name = name := by
  obtain ⟨row, _, _, hd⟩ := (addDatum_eq_some env allCards arena name bin d).1 h
  rw [hd]

theorem names_filterMap_addDatum_sublist (env : Env) (allCards : List Card)
    (arena : Option String) (bin : String) (l : List String) :
    ((l.filterMap (fun name => addDatum env allCards arena name bin)).map
      Datum.card_name).Sublist l := by
  induction l with
  | nil => simp
  | cons a t ih =>
    cases ha : addDatum env allCards arena a bin with
    | none =>
      rw [List.filterMap_cons]
      simp only [ha]
      exact List.Sublist.cons a ih
    | some d =>
      rw [List.filterMap_cons]
      simp only [ha]
      rw [List.map_cons, addDatum_name env allCards arena a bin d ha]
      exact List.Sublist.cons₂ a ih

theorem combinedData_names_nodup (env : Env) (allCards : List Card) (arena : Option String)
    (s : State) (hdis : BinsDisjoint s) :
    ((combinedData env allCards arena s).map Datum.card_name).Nodup := by
  have hsub : ((combinedData env allCards arena s).map Datum.card_name).Sublist
      (s.toxicBin.val ++ s.spellBin.val) := by
    unfold combinedData StrSet.toList
    rw [List.map_append]
    exact List.Sublist.append (names_filterMap_addDatum_sublist env allCards arena _ _)
      (names_filterMap_addDatum_sublist env allCards arena _ _)
  refine List.Nodup.sublist hsub ?_
  refine List.Nodup.append s.toxicBin.property s.spellBin.property ?_
  intro n ht hs
  exact hdis n ⟨(StrSet.has_iff _ _).2 ht, (StrSet.has_iff _ _).2 hs⟩

theorem mem_combinedData (env : Env) (allCards : List Card) (arena : Option String)
    (s : State) (d : Datum) :
    d ∈ combinedData env allCards arena s ↔
      ∃ name row, byNameGet allCards name = some row ∧
        0 < env.getWinsForArena row arena ∧
        ((s.toxicBin.has name = true ∧ d.bin = "toxic_troop") ∨
          (s.spellBin.has name = true ∧ d.bin = "cheap_spell")) ∧
        d.card_name = name ∧ d.wins = env.getWinsForArena row arena ∧
        d.win_rate = winRateFor env row arena (env.getWinsForArena row arena) := by
  unfold combinedData StrSet.toList
  rw [List.mem_append, List.mem_filterMap, List.mem_filterMap]
  simp only [addDatum_eq_some, StrSet.has_iff]
  constructor
  · rintro (⟨name, hn, row, hg, hw, hd⟩ | ⟨name, hn, row, hg, hw, hd⟩)
    · exact ⟨name, row, hg, hw, Or.inl ⟨hn, by rw [hd]⟩, by rw [hd], by rw [hd], by rw [hd]⟩
    · exact ⟨name, row, hg, hw, Or.inr ⟨hn, by rw [hd]⟩, by rw [hd], by rw [hd], by rw [hd]⟩
  · rintro ⟨name, row, hg, hw, hbin, h1, h2, h3⟩
    rcases hbin with ⟨hn, hb⟩ | ⟨hn, hb⟩
    · left
      refine ⟨name, hn, row, hg, hw, ?_⟩
      cases d
      simp only at h1 h2 h3 hb
      simp [h1, h2, h3, hb]
    · right
      refine ⟨name, hn, row, hg, hw, ?_⟩
      cases d
      simp only at h1 h2 h3 hb
      simp [h1, h2, h3, hb]

theorem buildChartDataForArena_perm (env : Env) (allCards : List Card)
    (arena : Option String) (s : State) (sortMode : String) (harena : truthy arena = true) :
    (buildChartDataForArena env allCards arena s sortMode).Perm
      (combinedData env allCards arena s) := by
  unfold buildChartDataForArena
  simp only [harena, Bool.true_eq_false, if_false]
  by_cases hm : sortMode = "winrate"
  · rw [if_pos hm]
    exact List.perm_insertionSort _ _
  · rw [if_neg hm]
    exact List.perm_insertionSort _ _

/-- C10. With disjoint bins and an arena selected, `buildChartDataForArena(sortMode)`
holds a datum exactly for the bin members that have a catalog record (`byName.get`) with a
strictly positive win count in the arena; the datum carries the name, that record's wins
and win rate, and the tag of the bin the name is in; no two data share a name; a bin
population without such members gives the empty array; and the data are ordered by
non-increasing `win_rate` when `sortMode` is `"winrate"`, by non-increasing `wins`
otherwise (in particular for `"wins"`). The lookup finds a row of the catalog with the
asked name, finds nothing exactly when no row has that name, and with unique names finds
every row. -/
theorem buildChartDataForArena_spec (env : Env) (allCards : List Card)
    (arena : Option String) (s : State) (sortMode : String)
    (hdis : BinsDisjoint s) (harena : truthy arena = true) :
    (∀ d : Datum, d ∈ buildChartDataForArena env allCards arena s sortMode ↔
      ∃ name row, byNameGet allCards name = some row ∧
        0 < env.getWinsForArena row arena ∧
        ((s.toxicBin.has name = true ∧ d.bin = "toxic_troop") ∨
          (s.spellBin.has name = true ∧ d.bin = "cheap_spell")) ∧
        d.card_name = name ∧ d.wins = env.getWinsForArena row arena ∧
        d.win_rate = winRateFor env row arena (env.getWinsForArena row arena)) ∧
    ((buildChartDataForArena env allCards arena s sortMode).map Datum.card_name).Nodup ∧
    ((∀ name row, (s.toxicBin.has name = true ∨ s.spellBin.has name = true) →
        byNameGet allCards name = some row → env.getWinsForArena row arena ≤ 0) →
      buildChartDataForArena env allCards arena s sortMode = []) ∧
    (sortMode = "winrate" →
      List.Pairwise (fun a b : Datum => b.win_rate ≤ a.win_rate)
        (buildChartDataForArena env allCards arena s sortMode)) ∧
    (sortMode ≠ "winrate" →
      List.Pairwise (fun a b : Datum => b.wins ≤ a.wins)
        (buildChartDataForArena env allCards arena s sortMode)) ∧
    (∀ name row, byNameGet allCards name = some row →
      row ∈ allCards ∧ row.card_name = name) ∧
    (∀ name, byNameGet allCards name = none ↔ ∀ r ∈ allCards, r.card_name ≠ name) ∧
    ((allCards.map Card.card_name).Nodup →
      ∀ row ∈ allCards, byNameGet allCards row.card_name = some row) := by
  have hperm := buildChartDataForArena_perm env allCards arena s sortMode harena
  have hmem : ∀ d : Datum, d ∈ buildChartDataForArena env allCards arena s sortMode ↔
      ∃ name row, byNameGet allCards name = some row ∧
        0 < env.getWinsForArena row arena ∧
        ((s.toxicBin.has name = true ∧ d.bin = "toxic_troop") ∨
          (s.spellBin.has name = true ∧ d.bin = "cheap_spell")) ∧
        d.card_name = name ∧ d.wins = env.getWinsForArena row arena ∧
        d.win_rate = winRateFor env row arena (env.getWinsForArena row arena) := by
    intro d
    rw [hperm.mem_iff]
    exact mem_combinedData env allCards arena s d
  refine ⟨hmem, ?_, ?_, ?_, ?_, byNameGet_some allCards, byNameGet_none allCards,
    byNameGet_of_mem allCards⟩
  · exact ((hperm.map Datum.card_name).nodup_iff).2
      (combinedData_names_nodup env allCards arena s hdis)
  · intro hnone
    apply List.eq_nil_iff_forall_not_mem.2
    intro d hd
    obtain ⟨name, row, hg, hw, hbin, _⟩ := (hmem d).1 hd
    have hin : s.toxicBin.has name = true ∨ s.spellBin.has name = true := by
      rcases hbin with h | h
      · exact Or.inl h.1
      · exact Or.inr h.1
    exact absurd hw (not_lt.2 (hnone name row hin hg))
  · intro hm
    unfold buildChartDataForArena
    simp only [harena, Bool.true_eq_false, if_false, if_pos hm]
    exact List.sorted_insertionSort rateDesc _
  · intro hm
    unfold buildChartDataForArena
    simp only [harena, Bool.true_eq_false, if_false, if_neg hm]
    exact List.sorted_insertionSort datumWinsDesc _

/-- Witness for C10: the default bins of the sample catalog are disjoint, "Legendary Arena"
is selected, and in mode `"wins"` the data have distinct names and non-increasing wins. -/
theorem buildChartDataForArena_spec_witness :
    BinsDisjoint (inferInitialBins sampleCatalog State.initial) ∧
    truthy (some "Legendary Arena") = true ∧
    ((buildChartDataForArena sampleEnv sampleCatalog (some "Legendary Arena")
      (inferInitialBins sampleCatalog State.initial) "wins").map Datum.card_name).Nodup ∧
    List.Pairwise (fun a b : Datum => b.wins ≤ a.wins)
      (buildChartDataForArena sampleEnv sampleCatalog (some "Legendary Arena")
        (inferInitialBins sampleCatalog State.initial) "wins") :=
  ⟨inferInitialBins_disjoint sampleCatalog State.initial (by decide), by decide,
   (buildChartDataForArena_spec sampleEnv sampleCatalog (some "Legendary Arena")
      (inferInitialBins sampleCatalog State.initial) "wins"
      (inferInitialBins_disjoint sampleCatalog State.initial (by decide)) (by decide)).2.1,
   (buildChartDataForArena_spec sampleEnv sampleCatalog (some "Legendary Arena")
      (inferInitialBins sampleCatalog State.initial) "wins"
      (inferInitialBins_disjoint sampleCatalog State.initial (by decide)) (by decide)).2.2.2.2.1
      (by decide)⟩

/-! ## Win rate of a datum -/

/-- C11. For every datum of `buildChartDataForArena`, built from the catalog row `row`:
when the rate lookup `window.getWinRateForArena` exists the datum's `win_rate` is the value
it returns; when it does not, `win_rate` is `wins / overall_count` if `overall_count` is
non-zero and `0` if `overall_count` is zero or absent. -/
theorem buildChartDataForArena_win_rate (env : Env) (allCards : List Card)
    (arena : Option String) (s : State) (sortMode : String) (d : Datum)
    (hd : d ∈ buildChartDataForArena env allCards arena s sortMode) :
    ∃ row, byNameGet allCards d.card_name = some row ∧
      d.wins = env.getWinsForArena row arena ∧ 0 < d.wins ∧
      (∀ getRate, env.getWinRateForArena = some getRate → d.win_rate = getRate row arena) ∧
      (env.getWinRateForArena = none →
        (∀ total : Int, row.overall_count = some total → total ≠ 0 →
          d.win_rate = (d.wins : ℚ) / (total : ℚ)) ∧
        ((row.overall_count = none ∨ row.overall_count = some 0) → d.win_rate = 0)) := by
  have harena : truthy arena = true := by
    cases h : truthy arena
    · exfalso
      unfold buildChartDataForArena at hd
      simp [h] at hd
    · rfl
  have hd' := (buildChartDataForArena_perm env allCards arena s sortMode harena).mem_iff.1 hd
  obtain ⟨name, row, hg, hw, _, hn, hwins, hrate⟩ :=
    (mem_combinedData env allCards arena s d).1 hd'
  refine ⟨row, by rw [hn]; exact hg, hwins, by rw [hwins]; exact hw, ?_, ?_⟩
  · intro getRate hget
    rw [hrate]
    unfold winRateFor
    rw [hget]
  · intro hnone
    constructor
    · intro total htot hne
      rw [hrate, hwins]
      unfold winRateFor
      rw [hnone]
      simp [htot, hne]
    · intro habs
      rw [hrate]
      unfold winRateFor
      rw [hnone]
      rcases habs with h | h <;> simp [h]

/-- Witness for C11: the datum of "Skeleton Army" in the sample data, built without a rate
lookup from 120 wins and an overall count of 200. -/
theorem buildChartDataForArena_win_rate_witness :
    sampleDatum ∈ buildChartDataForArena sampleEnv sampleCatalog (some "Legendary Arena")
      (inferInitialBins sampleCatalog State.initial) "wins" ∧
    ∃ row, byNameGet sampleCatalog sampleDatum.card_name = some row ∧
      sampleDatum.wins = sampleEnv.getWinsForArena row (some "Legendary Arena") ∧
      0 < sampleDatum.wins ∧
      (∀ getRate, sampleEnv.getWinRateForArena = some getRate →
        sampleDatum.win_rate = getRate row (some "Legendary Arena")) ∧
      (sampleEnv.getWinRateForArena = none →
        (∀ total : Int, row.overall_count = some total → total ≠ 0 →
          sampleDatum.win_rate = (sampleDatum.wins : ℚ) / (total : ℚ)) ∧
        ((row.overall_count = none ∨ row.overall_count = some 0) →
          sampleDatum.win_rate = 0)) :=
  have hmem : sampleDatum ∈ buildChartDataForArena sampleEnv sampleCatalog
      (some "Legendary Arena") (inferInitialBins sampleCatalog State.initial) "wins" :=
    (buildChartDataForArena_perm sampleEnv sampleCatalog (some "Legendary Arena")
      (inferInitialBins sampleCatalog State.initial) "wins" (by decide)).mem_iff.2
      ((mem_combinedData sampleEnv sampleCatalog (some "Legendary Arena")
        (inferInitialBins sampleCatalog State.initial) sampleDatum).2
        ⟨"Skeleton Army",
         { card_name := "Skeleton Army", bin := some "toxic_troop", elixir := NumField.num 3,
           rarity := some "Epic", card_type := some "Troop", overall_count := some 200,
           stats := [("Legendary Arena", 120)] },
         by decide, by decide, Or.inl ⟨by decide, rfl⟩, rfl, by decide, rfl⟩)
  ⟨hmem, buildChartDataForArena_win_rate sampleEnv sampleCatalog (some "Legendary Arena")
    (inferInitialBins sampleCatalog State.initial) "wins" sampleDatum hmem⟩

/-! ## Minimum, maximum and `||` -/

theorem foldl_min_spec (xs : List ℚ) (x : ℚ) :
    xs.foldl min x ∈ x :: xs ∧ ∀ v ∈ x :: xs, xs.foldl min x ≤ v := by
  induction xs generalizing x with
  | nil => simp
  | cons y ys ih =>
    rw [List.foldl_cons]
    obtain ⟨hm, hle⟩ := ih (min x y)
    constructor
    · rcases List.mem_cons.1 hm with h | h
      · rw [h]
        rcases min_choice x y with hc | hc
        · rw [hc]
          exact List.mem_cons_self _ _
        · rw [hc]
          exact List.mem_cons_of_mem _ (List.mem_cons_self _ _)
      · exact List.mem_cons_of_mem _ (List.mem_cons_of_mem _ h)
    · intro v hv
      have hxy := hle (min x y) (List.mem_cons_self _ _)
      rcases List.mem_cons.1 hv with h | h
      · rw [h]
        exact le_trans hxy (min_le_left x y)
      · rcases List.mem_cons.1 h with h' | h'
        · rw [h']
          exact le_trans hxy (min_le_right x y)
        · exact hle v (List.mem_cons_of_mem _ h')

theorem foldl_max_spec (xs : List ℚ) (x : ℚ) :
    xs.foldl max x ∈ x :: xs ∧ ∀ v ∈ x :: xs, v ≤ xs.foldl max x := by
  induction xs generalizing x with
  | nil => simp
  | cons y ys ih =>
    rw [List.foldl_cons]
    obtain ⟨hm, hle⟩ := ih (max x y)
    constructor
    · rcases List.mem_cons.1 hm with h | h
      · rw [h]
        rcases max_choice x y with hc | hc
        · rw [hc]
          exact List.mem_cons_self _ _
        · rw [hc]
          exact List.mem_cons_of_mem _ (List.mem_cons_self _ _)
      · exact List.mem_cons_of_mem _ (List.mem_cons_of_mem _ h)
    · intro v hv
      have hxy := hle (max x y) (List.mem_cons_self _ _)
      rcases List.mem_cons.1 hv with h | h
      · rw [h]
        exact le_trans (le_max_left x y) hxy
      · rcases List.mem_cons.1 h with h' | h'
        · rw [h']
          exact le_trans (le_max_right x y) hxy
        · exact hle v (List.mem_cons_of_mem _ h')

theorem d3min_exists (l : List ℚ) (hne : l ≠ []) :
    ∃ m, d3min l = some m ∧ m ∈ l ∧ ∀ v ∈ l, m ≤ v := by
  cases l with
  | nil => exact absurd rfl hne
  | cons x xs => exact ⟨xs.foldl min x, rfl, foldl_min_spec xs x⟩

theorem d3max_exists (l : List ℚ) (hne : l ≠ []) :
    ∃ m, d3max l = some m ∧ m ∈ l ∧ ∀ v ∈ l, v ≤ m := by
  cases l with
  | nil => exact absurd rfl hne
  | cons x xs => exact ⟨xs.foldl max x, rfl, foldl_max_spec xs x⟩

theorem d3min_eq (l : List ℚ) (m : ℚ) (hm : m ∈ l) (hle : ∀ v ∈ l, m ≤ v) :
    d3min l = some m := by
  obtain ⟨m', h, hm', hle'⟩ := d3min_exists l (List.ne_nil_of_mem hm)
  rw [h, le_antisymm (hle' m hm) (hle m' hm')]

theorem d3max_eq (l : List ℚ) (m : ℚ) (hm : m ∈ l) (hle : ∀ v ∈ l, v ≤ m) :
    d3max l = some m := by
  obtain ⟨m', h, hm', hle'⟩ := d3max_exists l (List.ne_nil_of_mem hm)
  rw [h, le_antisymm (hle m' hm') (hle' m hm)]

theorem orNum_some (x b : ℚ) : orNum (some x) b = if x ≠ 0 then x else b := by
  unfold orNum
  by_cases h : x = 0 <;> simp [h]

theorem orNum_some_zero (x : ℚ) : orNum (some x) 0 = x := by
  unfold orNum
  by_cases h : x = 0 <;> simp [h]

theorem orNum_int_one (n : Int) (h : 0 ≤ n) : orNum (some (n : ℚ)) 1 = max (n : ℚ) 1 := by
  unfold orNum
  by_cases h0 : n = 0
  · subst h0
    simp
  · have h1 : (1 : Int) ≤ n := by omega
    have h1' : (1 : ℚ) ≤ (n : ℚ) := by exact_mod_cast h1
    have hne : (n : ℚ) ≠ 0 := by exact_mod_cast h0
    simp only [hne, if_false]
    exact (max_eq_left h1').symm

theorem orNum_one_pos (x : ℚ) (h : 0 ≤ x) : 0 < orNum (some x) 1 := by
  unfold orNum
  by_cases h0 : x = 0
  · simp [h0]
  · simp only [h0, if_false]
    exact lt_of_le_of_ne h (Ne.symm h0)

theorem d3min_wins (data : List Datum) (minV : Int)
    (hmin : (∃ d ∈ data, d.wins = minV) ∧ ∀ d ∈ data, minV ≤ d.wins) :
    d3min (data.map (fun d => (d.wins : ℚ))) = some (minV : ℚ) := by
  apply d3min_eq
  · obtain ⟨d, hd, hw⟩ := hmin.1
    exact List.mem_map.2 ⟨d, hd, by rw [hw]⟩
  · intro v hv
    obtain ⟨d, hd, rfl⟩ := List.mem_map.1 hv
    exact_mod_cast hmin.2 d hd

theorem d3max_wins (data : List Datum) (maxV : Int)
    (hmax : (∃ d ∈ data, d.wins = maxV) ∧ ∀ d ∈ data, d.wins ≤ maxV) :
    d3max (data.map (fun d => (d.wins : ℚ))) = some (maxV : ℚ) := by
  apply d3max_eq
  · obtain ⟨d, hd, hw⟩ := hmax.1
    exact List.mem_map.2 ⟨d, hd, by rw [hw]⟩
  · intro v hv
    obtain ⟨d, hd, rfl⟩ := List.mem_map.1 hv
    exact_mod_cast hmax.2 d hd

/-! ## Wins chart domain -/

/-- C12. For a dataset of non-negative win counts with minimum `minV` and maximum `maxV`,
the domain `renderWinsChart` computes is the specified one: `pad = (maxV - minV) * 0.1`, or
`max(maxV, 1) * 0.1` when that is zero; `[max(0, minV - pad), maxV + pad]`, replaced by
`[0, max(maxV, 1)]` when the upper end is not above the lower end. -/
theorem renderWinsChartDomain_spec (data : List Datum) (minV maxV : Int)
    (hnonneg : ∀ d ∈ data, 0 ≤ d.wins)
    (hmin : (∃ d ∈ data, d.wins = minV) ∧ ∀ d ∈ data, minV ≤ d.wins)
    (hmax : (∃ d ∈ data, d.wins = maxV) ∧ ∀ d ∈ data, d.wins ≤ maxV) :
    renderWinsChartDomain data = specWinsDomain (minV : ℚ) (maxV : ℚ) ∧
    renderWinsChartDomain data =
      (if (maxV : ℚ) + (if ((maxV : ℚ) - minV) * (1 / 10) ≠ 0 then ((maxV : ℚ) - minV) * (1 / 10)
              else max (maxV : ℚ) 1 * (1 / 10)) ≤
            max 0 ((minV : ℚ) - (if ((maxV : ℚ) - minV) * (1 / 10) ≠ 0
              then ((maxV : ℚ) - minV) * (1 / 10) else max (maxV : ℚ) 1 * (1 / 10)))
        then (0, max (maxV : ℚ) 1)
        else (max 0 ((minV : ℚ) - (if ((maxV : ℚ) - minV) * (1 / 10) ≠ 0
                then ((maxV : ℚ) - minV) * (1 / 10) else max (maxV : ℚ) 1 * (1 / 10))),
              (maxV : ℚ) + (if ((maxV : ℚ) - minV) * (1 / 10) ≠ 0
                then ((maxV : ℚ) - minV) * (1 / 10) else max (maxV : ℚ) 1 * (1 / 10)))) := by
  have hmax0 : 0 ≤ maxV := by
    obtain ⟨d, hd, hw⟩ := hmax.1
    rw [← hw]
    exact hnonneg d hd
  have key : renderWinsChartDomain data = specWinsDomain (minV : ℚ) (maxV : ℚ) := by
    unfold renderWinsChartDomain specWinsDomain
    rw [d3min_wins data minV hmin, d3max_wins data maxV hmax]
    simp only [orNum_some_zero]
    simp only [orNum_int_one maxV hmax0]
    simp only [orNum_some]
  exact ⟨key, by rw [key]; rfl⟩

/-- Witness for C12: the three sample cards have 10, 12 and 13 wins. -/
theorem renderWinsChartDomain_spec_witness :
    (∀ d ∈ sampleRates, 0 ≤ d.wins) ∧
    renderWinsChartDomain sampleRates = specWinsDomain ((10 : Int) : ℚ) ((13 : Int) : ℚ) :=
  ⟨by decide,
   (renderWinsChartDomain_spec sampleRates 10 13 (by decide) (by decide) (by decide)).1⟩

/-! ## Win-rate chart domain -/

theorem d3min_rate (data : List Datum) (minV : ℚ)
    (hmin : (∃ d ∈ data, d.win_rate = minV) ∧ ∀ d ∈ data, minV ≤ d.win_rate) :
    d3min (data.map (fun d => d.win_rate)) = some minV := by
  apply d3min_eq
  · obtain ⟨d, hd, hw⟩ := hmin.1
    exact List.mem_map.2 ⟨d, hd, hw⟩
  · intro v hv
    obtain ⟨d, hd, rfl⟩ := List.mem_map.1 hv
    exact hmin.2 d hd

theorem d3max_rate (data : List Datum) (maxV : ℚ)
    (hmax : (∃ d ∈ data, d.win_rate = maxV) ∧ ∀ d ∈ data, d.win_rate ≤ maxV) :
    d3max (data.map (fun d => d.win_rate)) = some maxV := by
  apply d3max_eq
  · obtain ⟨d, hd, hw⟩ := hmax.1
    exact List.mem_map.2 ⟨d, hd, hw⟩
  · intro v hv
    obtain ⟨d, hd, rfl⟩ := List.mem_map.1 hv
    exact hmax.2 d hd

theorem renderWinRateChartPadded_eq (data : List Datum) (minV maxV : ℚ)
    (hmin : (∃ d ∈ data, d.win_rate = minV) ∧ ∀ d ∈ data, minV ≤ d.win_rate)
    (hmax : (∃ d ∈ data, d.win_rate = maxV) ∧ ∀ d ∈ data, d.win_rate ≤ maxV) :
    renderWinRateChartPadded data =
      (max 0 (minV - (if (maxV - minV) * (1 / 10) ≠ 0 then (maxV - minV) * (1 / 10)
          else 1 / 50)),
       min 1 (maxV + (if (maxV - minV) * (1 / 10) ≠ 0 then (maxV - minV) * (1 / 10)
          else 1 / 50))) := by
  unfold renderWinRateChartPadded
  rw [d3min_rate data minV hmin, d3max_rate data maxV hmax]
  simp only [Option.getD_some, orNum_some]

/-- C13, counterexample: for the flat dataset with the single win rate 0.5, in `[0, 1]`,
`renderWinRateChart` pads by `0.02` and gets `[0.48, 0.52]`, while the padding
`max(maxV, 1) * 0.1 = 0.1` of the claim would give `[0.4, 0.6]`. -/
theorem renderWinRateChartPadded_flat_counterexample :
    (∀ d ∈ singleRate (1 / 2), 0 ≤ d.win_rate ∧ d.win_rate ≤ 1) ∧
    ((∃ d ∈ singleRate (1 / 2), d.win_rate = 1 / 2) ∧
      ∀ d ∈ singleRate (1 / 2), d.win_rate = 1 / 2) ∧
    renderWinRateChartPadded (singleRate (1 / 2)) = (12 / 25, 13 / 25) ∧
    specRatePadded (1 / 2) (1 / 2) = (2 / 5, 3 / 5) ∧
    renderWinRateChartPadded (singleRate (1 / 2)) ≠ specRatePadded (1 / 2) (1 / 2) := by
  have h1 : renderWinRateChartPadded (singleRate (1 / 2)) = (12 / 25, 13 / 25) := by
    norm_num [renderWinRateChartPadded, singleRate, d3min, d3max, orNum]
  have h2 : specRatePadded (1 / 2) (1 / 2) = (2 / 5, 3 / 5) := by
    norm_num [specRatePadded]
  refine ⟨?_, ⟨?_, ?_⟩, h1, h2, ?_⟩
  · intro d hd
    simp only [singleRate, List.mem_singleton] at hd
    subst hd
    norm_num
  · exact ⟨_, List.mem_singleton.2 rfl, rfl⟩
  · intro d hd
    simp only [singleRate, List.mem_singleton] at hd
    subst hd
    rfl
  · rw [h1, h2]
    norm_num

/-- C13, amended. For a dataset of win rates with minimum `minV` and maximum `maxV`, the
domain `renderWinRateChart` computes before the minimum-span step is
`[max(0, minV - pad), min(1, maxV + pad)]` with `pad = (maxV - minV) * 0.1` when that is
non-zero and `pad = 0.02` for flat data. -/
theorem renderWinRateChartPadded_spec (data : List Datum) (minV maxV : ℚ)
    (hmin : (∃ d ∈ data, d.win_rate = minV) ∧ ∀ d ∈ data, minV ≤ d.win_rate)
    (hmax : (∃ d ∈ data, d.win_rate = maxV) ∧ ∀ d ∈ data, d.win_rate ≤ maxV) :
    ((maxV - minV) * (1 / 10) ≠ 0 →
      renderWinRateChartPadded data =
        (max 0 (minV - (maxV - minV) * (1 / 10)), min 1 (maxV + (maxV - minV) * (1 / 10)))) ∧
    (maxV = minV →
      renderWinRateChartPadded data = (max 0 (minV - 1 / 50), min 1 (maxV + 1 / 50))) := by
  have h := renderWinRateChartPadded_eq data minV maxV hmin hmax
  constructor
  · intro hne
    rw [h, if_pos hne]
  · intro heq
    have hz : ¬ ((maxV - minV) * (1 / 10) ≠ 0) := by
      rw [heq]
      simp
    rw [h, if_neg hz]

/-- Witness for C13 (amended): the sample rates 0.48, 0.50, 0.52 are padded by 0.004. -/
theorem renderWinRateChartPadded_spec_witness :
    ((∃ d ∈ sampleRates, d.win_rate = 12 / 25) ∧ ∀ d ∈ sampleRates, 12 / 25 ≤ d.win_rate) ∧
    ((∃ d ∈ sampleRates, d.win_rate = 13 / 25) ∧ ∀ d ∈ sampleRates, d.win_rate ≤ 13 / 25) ∧
    ((13 / 25 - 12 / 25 : ℚ) * (1 / 10) ≠ 0) ∧
    renderWinRateChartPadded sampleRates =
      (max 0 (12 / 25 - (13 / 25 - 12 / 25) * (1 / 10)),
       min 1 (13 / 25 + (13 / 25 - 12 / 25) * (1 / 10))) :=
  have hmin : (∃ d ∈ sampleRates, d.win_rate = 12 / 25) ∧
      ∀ d ∈ sampleRates, 12 / 25 ≤ d.win_rate := by
    constructor
    · exact ⟨_, List.mem_cons_self _ _, rfl⟩
    · intro d hd
      simp only [sampleRates, List.mem_cons, List.mem_singleton, List.not_mem_nil,
        or_false] at hd
      rcases hd with rfl | rfl | rfl <;> norm_num
  have hmax : (∃ d ∈ sampleRates, d.win_rate = 13 / 25) ∧
      ∀ d ∈ sampleRates, d.win_rate ≤ 13 / 25 := by
    constructor
    · exact ⟨_, List.mem_cons_of_mem _ (List.mem_cons_of_mem _ (List.mem_cons_self _ _)), rfl⟩
    · intro d hd
      simp only [sampleRates, List.mem_cons, List.mem_singleton, List.not_mem_nil,
        or_false] at hd
      rcases hd with rfl | rfl | rfl <;> norm_num
  ⟨hmin, hmax, by norm_num,
   (renderWinRateChartPadded_spec sampleRates (12 / 25) (13 / 25) hmin hmax).1 (by norm_num)⟩

/-! ## Domain safety -/

theorem renderWinsChartDomain_lt (data : List Datum) (hne : data ≠ [])
    (hnonneg : ∀ d ∈ data, 0 ≤ d.wins) :
    (renderWinsChartDomain data).1 < (renderWinsChartDomain data).2 := by
  have hne' : data.map (fun d => (d.wins : ℚ)) ≠ [] := by
    intro h
    exact hne (List.map_eq_nil_iff.1 h)
  obtain ⟨m, hm, hmem, hmle⟩ := d3min_exists _ hne'
  obtain ⟨M, hM, hMmem, _⟩ := d3max_exists _ hne'
  have hm0 : 0 ≤ m := by
    obtain ⟨d, hd, rfl⟩ := List.mem_map.1 hmem
    exact_mod_cast hnonneg d hd
  have hmM : m ≤ M := hmle M hMmem
  have hM0 : 0 ≤ M := le_trans hm0 hmM
  have hpad : 0 < orNum (some ((M - m) * (1 / 10))) (orNum (some M) 1 * (1 / 10)) := by
    rw [orNum_some]
    by_cases hz : (M - m) * (1 / 10) ≠ 0
    · rw [if_pos hz]
      have h1 : 0 ≤ (M - m) * (1 / 10) := by
        have : 0 ≤ M - m := sub_nonneg.2 hmM
        positivity
      exact lt_of_le_of_ne h1 (Ne.symm hz)
    · rw [if_neg hz]
      have := orNum_one_pos M hM0
      positivity
  unfold renderWinsChartDomain
  rw [hm, hM]
  simp only [orNum_some_zero]
  have hlt : max 0 (m - orNum (some ((M - m) * (1 / 10))) (orNum (some M) 1 * (1 / 10))) <
      M + orNum (some ((M - m) * (1 / 10))) (orNum (some M) 1 * (1 / 10)) := by
    apply max_lt
    · linarith
    · linarith
  rw [if_neg (not_le.2 hlt)]
  exact hlt

theorem renderWinRateChartPadded_bounds (data : List Datum) (hne : data ≠ [])
    (hrange : ∀ d ∈ data, 0 ≤ d.win_rate ∧ d.win_rate ≤ 1) :
    0 ≤ (renderWinRateChartPadded data).1 ∧
    (renderWinRateChartPadded data).1 < (renderWinRateChartPadded data).2 ∧
    (renderWinRateChartPadded data).2 ≤ 1 := by
  have hne' : data.map (fun d => d.win_rate) ≠ [] := by
    intro h
    exact hne (List.map_eq_nil_iff.1 h)
  obtain ⟨m, hm, hmem, hmle⟩ := d3min_exists _ hne'
  obtain ⟨M, hM, hMmem, _⟩ := d3max_exists _ hne'
  have hm0 : 0 ≤ m := by
    obtain ⟨d, hd, rfl⟩ := List.mem_map.1 hmem
    exact (hrange d hd).1
  have hM1 : M ≤ 1 := by
    obtain ⟨d, hd, rfl⟩ := List.mem_map.1 hMmem
    exact (hrange d hd).2
  have hmM : m ≤ M := hmle M hMmem
  have hpad : 0 < orNum (some ((M - m) * (1 / 10))) (1 / 50) := by
    rw [orNum_some]
    by_cases hz : (M - m) * (1 / 10) ≠ 0
    · rw [if_pos hz]
      have h1 : 0 ≤ (M - m) * (1 / 10) := by
        have : 0 ≤ M - m := sub_nonneg.2 hmM
        positivity
      exact lt_of_le_of_ne h1 (Ne.symm hz)
    · rw [if_neg hz]
      norm_num
  unfold renderWinRateChartPadded
  rw [hm, hM]
  simp only [Option.getD_some]
  refine ⟨le_max_left _ _, ?_, min_le_left _ _⟩
  apply max_lt
  · apply lt_min
    · norm_num
    · linarith
  · apply lt_min
    · linarith
    · linarith

theorem renderWinRateChartDomain_bounds (data : List Datum) (hne : data ≠ [])
    (hrange : ∀ d ∈ data, 0 ≤ d.win_rate ∧ d.win_rate ≤ 1) :
    (renderWinRateChartDomain data).1 < (renderWinRateChartDomain data).2 ∧
    0 ≤ (renderWinRateChartDomain data).1 ∧ (renderWinRateChartDomain data).2 ≤ 1 := by
  obtain ⟨h0, hlt, h1⟩ := renderWinRateChartPadded_bounds data hne hrange
  unfold renderWinRateChartDomain
  by_cases hs : (renderWinRateChartPadded data).2 - (renderWinRateChartPadded data).1 < 1 / 20
  · simp only [hs, if_true]
    refine ⟨?_, le_max_left _ _, min_le_left _ _⟩
    apply max_lt
    · apply lt_min
      · norm_num
      · linarith
    · apply lt_min
      · linarith
      · linarith
  · simp only [hs, if_false]
    exact ⟨hlt, h0, h1⟩

/-- C14. For every non-empty dataset, the domain of the wins chart (wins non-negative) has
its upper end strictly above its lower end, and the final domain of the win-rate chart
(rates in `[0, 1]`) has its upper end strictly above its lower end and lies in `[0, 1]`.
Single-valued, flat and all-zero data are included. -/
theorem chart_domain_safe :
    (∀ data : List Datum, data ≠ [] → (∀ d ∈ data, 0 ≤ d.wins) →
      (renderWinsChartDomain data).1 < (renderWinsChartDomain data).2) ∧
    (∀ data : List Datum, data ≠ [] → (∀ d ∈ data, 0 ≤ d.win_rate ∧ d.win_rate ≤ 1) →
      (renderWinRateChartDomain data).1 < (renderWinRateChartDomain data).2 ∧
      0 ≤ (renderWinRateChartDomain data).1 ∧ (renderWinRateChartDomain data).2 ≤ 1) :=
  ⟨renderWinsChartDomain_lt, renderWinRateChartDomain_bounds⟩

/-- Witness for C14: a single card with 12 wins and win rate 0 (flat data at the lower
edge) still has a proper domain in both charts. -/
theorem chart_domain_safe_witness :
    singleRate 0 ≠ [] ∧ (∀ d ∈ singleRate 0, 0 ≤ d.wins) ∧
    (∀ d ∈ singleRate 0, 0 ≤ d.win_rate ∧ d.win_rate ≤ 1) ∧
    (renderWinsChartDomain (singleRate 0)).1 < (renderWinsChartDomain (singleRate 0)).2 ∧
    (renderWinRateChartDomain (singleRate 0)).1 < (renderWinRateChartDomain (singleRate 0)).2 ∧
    0 ≤ (renderWinRateChartDomain (singleRate 0)).1 ∧
    (renderWinRateChartDomain (singleRate 0)).2 ≤ 1 :=
  have hne : singleRate 0 ≠ [] := by simp [singleRate]
  have hw : ∀ d ∈ singleRate 0, 0 ≤ d.wins := by
    intro d hd
    simp only [singleRate, List.mem_singleton] at hd
    subst hd
    decide
  have hr : ∀ d ∈ singleRate 0, 0 ≤ d.win_rate ∧ d.win_rate ≤ 1 := by
    intro d hd
    simp only [singleRate, List.mem_singleton] at hd
    subst hd
    norm_num
  ⟨hne, hw, hr, chart_domain_safe.1 (singleRate 0) hne hw,
   chart_domain_safe.2 (singleRate 0) hne hr⟩

/-! ## Minimum span of the win-rate domain -/

/-- C15, counterexample: for the single win rate 0, in `[0, 1]`, the padded domain
`[0, 0.02]` is narrower than 0.05, yet the final domain is `[0, 0.035]`: its span is not
0.05 and it is not centred on the padded midpoint 0.01, because the lower end is clamped
at 0. -/
theorem renderWinRateChartDomain_clamped_counterexample :
    (∀ d ∈ singleRate 0, 0 ≤ d.win_rate ∧ d.win_rate ≤ 1) ∧
    renderWinRateChartPadded (singleRate 0) = (0, 1 / 50) ∧
    (renderWinRateChartPadded (singleRate 0)).2 - (renderWinRateChartPadded (singleRate 0)).1
      < 1 / 20 ∧
    renderWinRateChartDomain (singleRate 0) = (0, 7 / 200) ∧
    (renderWinRateChartDomain (singleRate 0)).2 - (renderWinRateChartDomain (singleRate 0)).1
      ≠ 1 / 20 ∧
    ((renderWinRateChartDomain (singleRate 0)).2 + (renderWinRateChartDomain (singleRate 0)).1)
        / 2 ≠
      ((renderWinRateChartPadded (singleRate 0)).2 +
        (renderWinRateChartPadded (singleRate 0)).1) / 2 := by
  have hp : renderWinRateChartPadded (singleRate 0) = (0, 1 / 50) := by
    norm_num [renderWinRateChartPadded, singleRate, d3min, d3max, orNum]
  have hf : renderWinRateChartDomain (singleRate 0) = (0, 7 / 200) := by
    unfold renderWinRateChartDomain
    rw [hp]
    norm_num
  refine ⟨?_, hp, ?_, hf, ?_, ?_⟩
  · intro d hd
    simp only [singleRate, List.mem_singleton] at hd
    subst hd
    norm_num
  · rw [hp]
    norm_num
  · rw [hf]
    norm_num
  · rw [hf, hp]
    norm_num

/-- C15, amended. With `[lo, hi]` the padded and clamped domain and `mid` its midpoint: if
`hi - lo < 0.05` the final domain of `renderWinRateChart` is
`[max(0, mid - 0.025), min(1, mid + 0.025)]`, which lies in `[0, 1]` and has span at most
0.05; it is centred on `mid` with span exactly 0.05 when `0.025 <= mid <= 0.975`. If the
padded span is at least 0.05 the domain is left unchanged. -/
theorem renderWinRateChartDomain_min_span (data : List Datum) :
    ((renderWinRateChartPadded data).2 - (renderWinRateChartPadded data).1 < 1 / 20 →
      renderWinRateChartDomain data =
        (max 0 (((renderWinRateChartPadded data).2 + (renderWinRateChartPadded data).1) / 2
            - 1 / 40),
         min 1 (((renderWinRateChartPadded data).2 + (renderWinRateChartPadded data).1) / 2
            + 1 / 40)) ∧
      0 ≤ (renderWinRateChartDomain data).1 ∧ (renderWinRateChartDomain data).2 ≤ 1 ∧
      (renderWinRateChartDomain data).2 - (renderWinRateChartDomain data).1 ≤ 1 / 20 ∧
      (1 / 40 ≤ ((renderWinRateChartPadded data).2 + (renderWinRateChartPadded data).1) / 2 →
        ((renderWinRateChartPadded data).2 + (renderWinRateChartPadded data).1) / 2
          ≤ 39 / 40 →
        renderWinRateChartDomain data =
          (((renderWinRateChartPadded data).2 + (renderWinRateChartPadded data).1) / 2
              - 1 / 40,
           ((renderWinRateChartPadded data).2 + (renderWinRateChartPadded data).1) / 2
              + 1 / 40) ∧
        (renderWinRateChartDomain data).2 - (renderWinRateChartDomain data).1 = 1 / 20 ∧
        ((renderWinRateChartDomain data).2 + (renderWinRateChartDomain data).1) / 2 =
          ((renderWinRateChartPadded data).2 + (renderWinRateChartPadded data).1) / 2)) ∧
    (¬ (renderWinRateChartPadded data).2 - (renderWinRateChartPadded data).1 < 1 / 20 →
      renderWinRateChartDomain data = renderWinRateChartPadded data) := by
  constructor
  · intro hs
    have hf : renderWinRateChartDomain data =
        (max 0 (((renderWinRateChartPadded data).2 + (renderWinRateChartPadded data).1) / 2
            - 1 / 40),
         min 1 (((renderWinRateChartPadded data).2 + (renderWinRateChartPadded data).1) / 2
            + 1 / 40)) := by
      unfold renderWinRateChartDomain
      simp only [hs, if_true]
    refine ⟨hf, ?_, ?_, ?_, ?_⟩
    · rw [hf]
      exact le_max_left _ _
    · rw [hf]
      exact min_le_left _ _
    · rw [hf]
      have h1 := le_max_right (0 : ℚ)
        (((renderWinRateChartPadded data).2 + (renderWinRateChartPadded data).1) / 2 - 1 / 40)
      have h2 := min_le_right (1 : ℚ)
        (((renderWinRateChartPadded data).2 + (renderWinRateChartPadded data).1) / 2 + 1 / 40)
      simp only
      linarith
    · intro hlo hhi
      have hmax : max 0 (((renderWinRateChartPadded data).2 +
          (renderWinRateChartPadded data).1) / 2 - 1 / 40) =
          ((renderWinRateChartPadded data).2 + (renderWinRateChartPadded data).1) / 2
            - 1 / 40 := max_eq_right (by linarith)
      have hmin : min 1 (((renderWinRateChartPadded data).2 +
          (renderWinRateChartPadded data).1) / 2 + 1 / 40) =
          ((renderWinRateChartPadded data).2 + (renderWinRateChartPadded data).1) / 2
            + 1 / 40 := min_eq_right (by linarith)
      rw [hf, hmax, hmin]
      refine ⟨rfl, ?_, ?_⟩
      · simp only
        ring
      · simp only
        ring
  · intro hs
    unfold renderWinRateChartDomain
    simp only [hs, if_false]

/-- Witness for C15 (amended): the rates 0.48, 0.50, 0.52 give the padded domain
`[0.476, 0.524]`, narrower than 0.05 with midpoint 0.5, and the final domain
`[0.475, 0.525]`. -/
theorem renderWinRateChartDomain_min_span_witness :
    renderWinRateChartPadded sampleRates = (119 / 250, 131 / 250) ∧
    (renderWinRateChartPadded sampleRates).2 - (renderWinRateChartPadded sampleRates).1
      < 1 / 20 ∧
    renderWinRateChartDomain sampleRates = (19 / 40, 21 / 40) := by
  have hp : renderWinRateChartPadded sampleRates = (119 / 250, 131 / 250) := by
    norm_num [renderWinRateChartPadded, sampleRates, d3min, d3max, orNum]
  have hs : (renderWinRateChartPadded sampleRates).2 - (renderWinRateChartPadded sampleRates).1
      < 1 / 20 := by
    rw [hp]
    norm_num
  refine ⟨hp, hs, ?_⟩
  have h := ((renderWinRateChartDomain_min_span sampleRates).1 hs).2.2.2.2
    (by rw [hp]; norm_num) (by rw [hp]; norm_num)
  rw [h.1, hp]
  norm_num

/-! ## Per-bin means -/

theorem d3mean_eq_none (l : List ℚ) : d3mean l = none ↔ l = [] := by
  unfold d3mean
  cases l with
  | nil => simp
  | cons a t => simp

theorem d3mean_of_ne_nil (l : List ℚ) (h : l ≠ []) :
    d3mean l = some (l.sum / (l.length : ℚ)) := by
  unfold d3mean
  have hlen : l.length ≠ 0 := by
    intro h0
    exact h (List.length_eq_zero.1 h0)
  rw [if_neg hlen]

theorem d3mean_perm {l₁ l₂ : List ℚ} (h : l₁.Perm l₂) : d3mean l₁ = d3mean l₂ := by
  unfold d3mean
  rw [h.length_eq, h.sum_eq]

theorem filter_map_eq_nil {α : Type} (points : List α) (inBin : α → Bool) (metric : α → ℚ) :
    (points.filter inBin).map metric = [] ↔ ∀ p ∈ points, inBin p = false := by
  rw [List.map_eq_nil_iff, List.filter_eq_nil_iff]
  constructor
  · intro h p hp
    cases hb : inBin p
    · rfl
    · exact absurd hb (h p hp)
  · intro h p hp hb
    rw [h p hp] at hb
    exact absurd hb (by simp)

theorem isBinMean_d3mean {α : Type} (points : List α) (inBin : α → Bool) (metric : α → ℚ) :
    IsBinMean (d3mean ((points.filter inBin).map metric)) points inBin metric := by
  have hne : (∃ p ∈ points, inBin p = true) → (points.filter inBin).map metric ≠ [] := by
    rintro ⟨p, hp, hb⟩ h
    have := (filter_map_eq_nil points inBin metric).1 h p hp
    rw [hb] at this
    exact absurd this (by simp)
  refine ⟨?_, ?_, ?_⟩
  · rw [d3mean_eq_none, filter_map_eq_nil]
  · intro hex
    exact d3mean_of_ne_nil _ (hne hex)
  · intro hex hzero
    rw [d3mean_of_ne_nil _ (hne hex)]
    have hsum : ((points.filter inBin).map metric).sum = 0 := by
      apply List.sum_eq_zero
      intro v hv
      obtain ⟨p, hp, rfl⟩ := List.mem_map.1 hv
      exact hzero p (List.mem_filter.1 hp).1 (List.mem_filter.1 hp).2
    rw [hsum, zero_div]

end Explore

namespace Story

open Explore

theorem binMean_eq_d3mean (vals : List ℚ) : binMean vals = d3mean vals := by
  unfold binMean
  by_cases h : vals.length ≠ 0
  · rw [if_pos h]
  · rw [if_neg h]
    have h0 : vals = [] := List.length_eq_zero.1 (not_not.1 h)
    rw [h0]
    rfl

theorem binMean_binValues_sorted (data : List Row) (tag : String) :
    binMean (binValues (data.insertionSort rowWinsDesc) tag) = binMean (binValues data tag) := by
  rw [binMean_eq_d3mean, binMean_eq_d3mean]
  apply d3mean_perm
  unfold binValues
  exact ((List.perm_insertionSort rowWinsDesc data).filter _).map _

theorem isBinMean_binMean (data : List Row) (tag : String) :
    IsBinMean (binMean (binValues data tag)) data (fun d => d.bin == some tag)
      (fun d => (d.wins : ℚ)) := by
  rw [binMean_eq_d3mean]
  exact isBinMean_d3mean data _ _

theorem renderArenaChart_of_ne_nil (chartData : Option (String → Option (List Row)))
    (width : ℚ) (arenaName : String) (previousArenaName : Option String)
    (hne : getArenaData chartData arenaName ≠ []) :
    renderArenaChart chartData width arenaName previousArenaName =
      some { toxicMean := binMean (binValues (getArenaData chartData arenaName) "toxic_troop"),
             spellMean := binMean (binValues (getArenaData chartData arenaName) "cheap_spell"),
             gap := gapSummary chartData width previousArenaName
               (binMean (binValues (getArenaData chartData arenaName) "toxic_troop"))
               (binMean (binValues (getArenaData chartData arenaName) "cheap_spell")) } := by
  unfold renderArenaChart
  have hlen : (getArenaData chartData arenaName).length ≠ 0 := by
    intro h0
    exact hne (List.length_eq_zero.1 h0)
  simp only [hlen, if_false, binMean_binValues_sorted]

theorem renderArenaChart_of_nil (chartData : Option (String → Option (List Row)))
    (width : ℚ) (arenaName : String) (previousArenaName : Option String)
    (hnil : getArenaData chartData arenaName = []) :
    renderArenaChart chartData width arenaName previousArenaName = none := by
  unfold renderArenaChart
  simp [hnil]

theorem renderArenaChart_some (chartData : Option (String → Option (List Row)))
    (width : ℚ) (arenaName : String) (previousArenaName : Option String) (chart : ArenaChart)
    (h : renderArenaChart chartData width arenaName previousArenaName = some chart) :
    chart.toxicMean = binMean (binValues (getArenaData chartData arenaName) "toxic_troop") ∧
    chart.spellMean = binMean (binValues (getArenaData chartData arenaName) "cheap_spell") ∧
    chart.gap = gapSummary chartData width previousArenaName chart.toxicMean chart.spellMean := by
  by_cases hne : getArenaData chartData arenaName = []
  · rw [renderArenaChart_of_nil chartData width arenaName previousArenaName hne] at h
    exact absurd h (by simp)
  · rw [renderArenaChart_of_ne_nil chartData width arenaName previousArenaName hne] at h
    have hc := Option.some.inj h
    subst hc
    exact ⟨rfl, rfl, rfl⟩

theorem gapSummary_some (chartData : Option (String → Option (List Row))) (width : ℚ)
    (previousArenaName : Option String) (toxicMean spellMean : Option ℚ) (g : GapBar) :
    gapSummary chartData width previousArenaName toxicMean spellMean = some g ↔
      ∃ t s, toxicMean = some t ∧ spellMean = some s ∧ 0 < t + s ∧
        g = { toxicX := 0, toxicWidth := t / (t + s) * width,
              spellX := t / (t + s) * width,
              spellWidth := width - t / (t + s) * width,
              label := gapLabel t s,
              tickX := prevTick chartData width previousArenaName } := by
  unfold gapSummary
  cases toxicMean with
  | none => simp
  | some t =>
    cases spellMean with
    | none => simp
    | some s =>
      by_cases hpos : t + s > 0
      · simp only [hpos, if_true, Option.some.injEq]
        constructor
        · intro h
          exact ⟨t, s, rfl, rfl, hpos, h.symm⟩
        · rintro ⟨t', s', ht, hs, _, hg⟩
          subst ht hs
          exact hg.symm
      · simp only [hpos, if_false]
        constructor
        · intro h
          exact absurd h (by simp)
        · rintro ⟨t', s', ht, hs, hp, _⟩
          have ht' := Option.some.inj ht
          have hs' := Option.some.inj hs
          subst ht' hs'
          exact absurd hp hpos

/-- C16. In each of the three charts (wins chart and win-rate chart of the explorer, arena
chart of the narrative) and for each of the two tags, the bin's mean is absent exactly when
no data point carries the tag, and is otherwise the sum of the active metric over the
points carrying the tag divided by their count; a bin whose points all have metric 0 has
the present mean 0. -/
theorem per_bin_mean_spec :
    (∀ data : List Datum,
      IsBinMean (renderWinsChartMeans data).1 data (fun d => d.bin == "toxic_troop")
        (fun d => (d.wins : ℚ)) ∧
      IsBinMean (renderWinsChartMeans data).2 data (fun d => d.bin == "cheap_spell")
        (fun d => (d.wins : ℚ)) ∧
      IsBinMean (renderWinRateChartMeans data).1 data (fun d => d.bin == "toxic_troop")
        (fun d => d.win_rate) ∧
      IsBinMean (renderWinRateChartMeans data).2 data (fun d => d.bin == "cheap_spell")
        (fun d => d.win_rate)) ∧
    (∀ (chartData : Option (String → Option (List Row))) (width : ℚ) (arenaName : String)
        (previousArenaName : Option String) (chart : ArenaChart),
      renderArenaChart chartData width arenaName previousArenaName = some chart →
      IsBinMean chart.toxicMean (getArenaData chartData arenaName)
        (fun d => d.bin == some "toxic_troop") (fun d => (d.wins : ℚ)) ∧
      IsBinMean chart.spellMean (getArenaData chartData arenaName)
        (fun d => d.bin == some "cheap_spell") (fun d => (d.wins : ℚ))) := by
  constructor
  · intro data
    exact ⟨isBinMean_d3mean data _ _, isBinMean_d3mean data _ _,
      isBinMean_d3mean data _ _, isBinMean_d3mean data _ _⟩
  · intro chartData width arenaName previousArenaName chart h
    obtain ⟨ht, hs, _⟩ := renderArenaChart_some chartData width arenaName previousArenaName chart h
    rw [ht, hs]
    exact ⟨isBinMean_binMean _ _, isBinMean_binMean _ _⟩

theorem sampleStory_spooky :
    renderArenaChart sampleStory 700 "Spooky Town" none =
      some { toxicMean := some 100, spellMean := some 40,
             gap := some { toxicX := 0, toxicWidth := 100 / 140 * 700,
                           spellX := 100 / 140 * 700, spellWidth := 700 - 100 / 140 * 700,
                           label := "Difference between mean lines: toxic troops higher in this arena",
                           tickX := none } } := by
  simp [renderArenaChart, sampleStory, getArenaData, binMean, binValues, Explore.d3mean,
    List.insertionSort, List.orderedInsert, rowWinsDesc, gapSummary, gapLabel, prevTick]
  norm_num

theorem sampleStory_rascal :
    renderArenaChart sampleStory 700 "Rascal's Hideout" (some "Spooky Town") =
      some { toxicMean := some 50, spellMean := some 50,
             gap := some { toxicX := 0, toxicWidth := 350, spellX := 350, spellWidth := 350,
                           label := "Difference between mean lines: very small in this arena",
                           tickX := some (100 / 140 * 700) } } := by
  simp [renderArenaChart, sampleStory, getArenaData, binMean, binValues, Explore.d3mean,
    List.insertionSort, List.orderedInsert, rowWinsDesc, gapSummary, gapLabel, prevTick,
    Explore.truthy]
  norm_num

theorem sampleStory_serenity :
    renderArenaChart sampleStory 700 "Serenity Peak" (some "Rascal's Hideout") =
      some { toxicMean := none, spellMean := some 40, gap := none } := by
  simp [renderArenaChart, sampleStory, getArenaData, binMean, binValues, Explore.d3mean,
    List.insertionSort, gapSummary]

/-- Witness for C16: in the sample arena "Serenity Peak" no row carries the toxic tag and
one row with 40 wins carries the spell tag. -/
theorem per_bin_mean_spec_witness :
    renderArenaChart sampleStory 700 "Serenity Peak" (some "Rascal's Hideout") =
      some { toxicMean := none, spellMean := some 40, gap := none } ∧
    IsBinMean (none : Option ℚ) (getArenaData sampleStory "Serenity Peak")
      (fun d => d.bin == some "toxic_troop") (fun d => (d.wins : ℚ)) ∧
    IsBinMean (some (40 : ℚ)) (getArenaData sampleStory "Serenity Peak")
      (fun d => d.bin == some "cheap_spell") (fun d => (d.wins : ℚ)) :=
  ⟨sampleStory_serenity,
   per_bin_mean_spec.2 sampleStory 700 "Serenity Peak" (some "Rascal's Hideout")
     { toxicMean := none, spellMean := some 40, gap := none } sampleStory_serenity⟩

/-! ## Gap bar -/

/-- C17. The gap bar of an arena chart is drawn exactly when both per-bin means are
present and their sum is positive; it then has the toxic segment at `x = 0` with width
`toxicMean / (toxicMean + spellMean) * W`, and the spell segment starting where the toxic
one ends with width `W` minus the toxic width. When the chart stops at "No data available"
both means are absent and nothing is drawn. -/
theorem gap_bar_spec (chartData : Option (String → Option (List Row))) (width : ℚ)
    (arenaName : String) (previousArenaName : Option String) :
    (∀ chart : ArenaChart,
      renderArenaChart chartData width arenaName previousArenaName = some chart →
      ((∃ g, chart.gap = some g) ↔
        ∃ t s, chart.toxicMean = some t ∧ chart.spellMean = some s ∧ 0 < t + s) ∧
      (∀ g t s, chart.gap = some g → chart.toxicMean = some t → chart.spellMean = some s →
        g.toxicX = 0 ∧ g.toxicWidth = t / (t + s) * width ∧
        g.spellX = g.toxicWidth ∧ g.spellWidth = width - g.toxicWidth)) ∧
    (renderArenaChart chartData width arenaName previousArenaName = none →
      binMean (binValues (getArenaData chartData arenaName) "toxic_troop") = none ∧
      binMean (binValues (getArenaData chartData arenaName) "cheap_spell") = none) := by
  constructor
  · intro chart h
    obtain ⟨_, _, hgap⟩ :=
      renderArenaChart_some chartData width arenaName previousArenaName chart h
    constructor
    · constructor
      · rintro ⟨g, hg⟩
        rw [hgap] at hg
        obtain ⟨t, s, ht, hs, hpos, _⟩ := (gapSummary_some _ _ _ _ _ g).1 hg
        exact ⟨t, s, ht, hs, hpos⟩
      · rintro ⟨t, s, ht, hs, hpos⟩
        rw [hgap]
        exact ⟨_, (gapSummary_some _ _ _ _ _ _).2 ⟨t, s, ht, hs, hpos, rfl⟩⟩
    · intro g t s hg ht hs
      rw [hgap] at hg
      obtain ⟨t', s', ht', hs', _, hgeq⟩ := (gapSummary_some _ _ _ _ _ g).1 hg
      rw [ht] at ht'
      rw [hs] at hs'
      have e1 := Option.some.inj ht'
      have e2 := Option.some.inj hs'
      subst e1 e2
      rw [hgeq]
      exact ⟨rfl, rfl, rfl, rfl⟩
  · intro hnone
    have hnil : getArenaData chartData arenaName = [] := by
      by_contra hne
      rw [renderArenaChart_of_ne_nil chartData width arenaName previousArenaName hne] at hnone
      exact absurd hnone (by simp)
    rw [hnil]
    exact ⟨rfl, rfl⟩

/-- Witness for C17: wins A = 100 (toxic) and B = 40 (spell) give the means 100 and 40 and
a toxic share of 100/140 of the bar; with an empty toxic side and a non-empty spell side
the toxic mean is absent and no gap bar is drawn. -/
theorem gap_bar_spec_witness :
    renderArenaChart sampleStory 700 "Spooky Town" none =
      some { toxicMean := some 100, spellMean := some 40,
             gap := some { toxicX := 0, toxicWidth := 100 / 140 * 700,
                           spellX := 100 / 140 * 700, spellWidth := 700 - 100 / 140 * 700,
                           label := "Difference between mean lines: toxic troops higher in this arena",
                           tickX := none } } ∧
    (∃ t s : ℚ, (some 100 : Option ℚ) = some t ∧ (some 40 : Option ℚ) = some s ∧ 0 < t + s) ∧
    renderArenaChart sampleStory 700 "Serenity Peak" (some "Rascal's Hideout") =
      some { toxicMean := none, spellMean := some 40, gap := none } ∧
    ¬ (∃ t s : ℚ, (none : Option ℚ) = some t ∧ (some 40 : Option ℚ) = some s ∧ 0 < t + s) :=
  ⟨sampleStory_spooky,
   ((gap_bar_spec sampleStory 700 "Spooky Town" none).1 _ sampleStory_spooky).1.1 ⟨_, rfl⟩,
   sampleStory_serenity,
   fun h =>
     absurd (((gap_bar_spec sampleStory 700 "Serenity Peak" (some "Rascal's Hideout")).1 _
       sampleStory_serenity).1.2 h) (by simp)⟩

/-- C18. The gap-bar label is the "very small" label when `|toxicMean - spellMean| < 1e-6`,
otherwise the "toxic troops higher" label when `toxicMean > spellMean` and the "cheap
spells higher" label when `toxicMean < spellMean`; the three labels are different texts and
every pair of means gets one of them; and a drawn gap bar carries the label of its two
means. -/
theorem gap_label_spec :
    (∀ t s : ℚ,
      (|t - s| < 1 / 1000000 →
        gapLabel t s = "Difference between mean lines: very small in this arena") ∧
      (¬ |t - s| < 1 / 1000000 → s < t →
        gapLabel t s = "Difference between mean lines: toxic troops higher in this arena") ∧
      (¬ |t - s| < 1 / 1000000 → t < s →
        gapLabel t s = "Difference between mean lines: cheap spells higher in this arena") ∧
      (gapLabel t s = "Difference between mean lines: very small in this arena" ∨
        gapLabel t s = "Difference between mean lines: toxic troops higher in this arena" ∨
        gapLabel t s = "Difference between mean lines: cheap spells higher in this arena")) ∧
    ("Difference between mean lines: very small in this arena" ≠
        "Difference between mean lines: toxic troops higher in this arena" ∧
      "Difference between mean lines: very small in this arena" ≠
        "Difference between mean lines: cheap spells higher in this arena" ∧
      "Difference between mean lines: toxic troops higher in this arena" ≠
        "Difference between mean lines: cheap spells higher in this arena") ∧
    (∀ (chartData : Option (String → Option (List Row))) (width : ℚ) (arenaName : String)
        (previousArenaName : Option String) (chart : ArenaChart) (g : GapBar) (t s : ℚ),
      renderArenaChart chartData width arenaName previousArenaName = some chart →
      chart.gap = some g → chart.toxicMean = some t → chart.spellMean = some s →
      g.label = gapLabel t s) := by
  refine ⟨?_, ⟨by decide, by decide, by decide⟩, ?_⟩
  · intro t s
    refine ⟨?_, ?_, ?_, ?_⟩
    · intro h
      unfold gapLabel
      rw [if_pos h]
    · intro h hlt
      unfold gapLabel
      rw [if_neg h, if_pos hlt]
    · intro h hlt
      unfold gapLabel
      rw [if_neg h, if_neg (not_lt.2 (le_of_lt hlt))]
    · unfold gapLabel
      by_cases h : |t - s| < 1 / 1000000
      · rw [if_pos h]
        exact Or.inl rfl
      · rw [if_neg h]
        by_cases hlt : t > s
        · rw [if_pos hlt]
          exact Or.inr (Or.inl rfl)
        · rw [if_neg hlt]
          exact Or.inr (Or.inr rfl)
  · intro chartData width arenaName previousArenaName chart g t s h hg ht hs
    obtain ⟨_, _, hgap⟩ :=
      renderArenaChart_some chartData width arenaName previousArenaName chart h
    rw [hgap] at hg
    obtain ⟨t', s', ht', hs', _, hgeq⟩ := (gapSummary_some _ _ _ _ _ g).1 hg
    rw [ht] at ht'
    rw [hs] at hs'
    have e1 := Option.some.inj ht'
    have e2 := Option.some.inj hs'
    subst e1 e2
    rw [hgeq]

/-- Witness for C18: the means 100 and 40 get the "toxic troops higher" label, the means 50
and 50 the "very small" label. -/
theorem gap_label_spec_witness :
    (¬ |(100 : ℚ) - 40| < 1 / 1000000) ∧ ((40 : ℚ) < 100) ∧
    gapLabel 100 40 = "Difference between mean lines: toxic troops higher in this arena" ∧
    (|(50 : ℚ) - 50| < 1 / 1000000) ∧
    gapLabel 50 50 = "Difference between mean lines: very small in this arena" :=
  have h1 : ¬ |(100 : ℚ) - 40| < 1 / 1000000 := by norm_num [abs_of_pos]
  have h2 : (40 : ℚ) < 100 := by norm_num
  have h3 : |(50 : ℚ) - 50| < 1 / 1000000 := by norm_num
  ⟨h1, h2, (gap_label_spec.1 100 40).2.1 h1 h2, h3, (gap_label_spec.1 50 50).1 h3⟩

/-! ## Previous-arena tick -/

theorem prevTick_some (chartData : Option (String → Option (List Row))) (width : ℚ)
    (prev : String) (hprev : prev ≠ "") (x : ℚ) :
    prevTick chartData width (some prev) = some x ↔
      ∃ pt ps, binMean (binValues (getArenaData chartData prev) "toxic_troop") = some pt ∧
        binMean (binValues (getArenaData chartData prev) "cheap_spell") = some ps ∧
        0 < pt + ps ∧ x = pt / (pt + ps) * width := by
  have htr : Explore.truthy (some prev) = true := by
    simp [Explore.truthy, hprev]
  unfold prevTick
  simp only [htr, Bool.true_eq_false, if_false]
  cases binMean (binValues (getArenaData chartData prev) "toxic_troop") with
  | none => simp
  | some pt =>
    cases binMean (binValues (getArenaData chartData prev) "cheap_spell") with
    | none => simp
    | some ps =>
      by_cases hpos : pt + ps > 0
      · simp only [hpos, if_true, Option.some.injEq]
        constructor
        · intro h
          exact ⟨pt, ps, rfl, rfl, hpos, h.symm⟩
        · rintro ⟨pt', ps', h1, h2, _, hx⟩
          subst h1 h2
          exact hx.symm
      · simp only [hpos, if_false]
        constructor
        · intro h
          exact absurd h (by simp)
        · rintro ⟨pt', ps', h1, h2, hp, _⟩
          have e1 := Option.some.inj h1
          have e2 := Option.some.inj h2
          subst e1 e2
          exact absurd hp hpos

theorem gap_tick (chartData : Option (String → Option (List Row))) (width : ℚ)
    (arenaName : String) (previousArenaName : Option String) (chart : ArenaChart) (g : GapBar)
    (h : renderArenaChart chartData width arenaName previousArenaName = some chart)
    (hg : chart.gap = some g) : g.tickX = prevTick chartData width previousArenaName := by
  obtain ⟨_, _, hgap⟩ :=
    renderArenaChart_some chartData width arenaName previousArenaName chart h
  rw [hgap] at hg
  obtain ⟨_, _, _, _, _, hgeq⟩ := (gapSummary_some _ _ _ _ _ g).1 hg
  rw [hgeq]

/-- C19. `renderStoryCharts` gives the first story arena no previous arena and every later
one the arena just before it in `STORY_ARENAS`. On a drawn gap bar of an arena with a
previous arena, the tick is drawn exactly when the previous arena's toxic and spell means
are both present with a positive sum, at
`x = prevToxicMean / (prevToxicMean + prevSpellMean) * barWidth`; without a previous arena
there is no tick (and without a gap bar there is nothing to carry one). -/
theorem prev_tick_spec :
    prevArena 0 = none ∧
    (∀ i : Nat, 0 < i → i < STORY_ARENAS.length →
      ∃ cfg, STORY_ARENAS.get? (i - 1) = some cfg ∧ prevArena i = some cfg.2) ∧
    (∀ (chartData : Option (String → Option (List Row))) (width : String → ℚ),
      renderStoryCharts chartData width =
        [ renderArenaChart chartData (width "#chart-spooky-town") "Spooky Town" none,
          renderArenaChart chartData (width "#chart-rascals-hideout") "Rascal's Hideout"
            (some "Spooky Town"),
          renderArenaChart chartData (width "#chart-serenity-peak") "Serenity Peak"
            (some "Rascal's Hideout"),
          renderArenaChart chartData (width "#chart-miners-mine") "Miner's Mine"
            (some "Serenity Peak"),
          renderArenaChart chartData (width "#chart-legendary-arena") "Legendary Arena"
            (some "Miner's Mine") ]) ∧
    (∀ (chartData : Option (String → Option (List Row))) (width : ℚ) (arenaName prev : String)
        (chart : ArenaChart) (g : GapBar),
      renderArenaChart chartData width arenaName (some prev) = some chart →
      chart.gap = some g → prev ≠ "" →
      ∀ x : ℚ, g.tickX = some x ↔
        ∃ pt ps, binMean (binValues (getArenaData chartData prev) "toxic_troop") = some pt ∧
          binMean (binValues (getArenaData chartData prev) "cheap_spell") = some ps ∧
          0 < pt + ps ∧ x = pt / (pt + ps) * width) ∧
    (∀ (chartData : Option (String → Option (List Row))) (width : ℚ) (arenaName : String)
        (chart : ArenaChart) (g : GapBar),
      renderArenaChart chartData width arenaName none = some chart →
      chart.gap = some g → g.tickX = none) := by
  refine ⟨rfl, ?_, ?_, ?_, ?_⟩
  · intro i hpos hlt
    have hlen : STORY_ARENAS.length = 5 := rfl
    rw [hlen] at hlt
    have hcases : i = 1 ∨ i = 2 ∨ i = 3 ∨ i = 4 := by omega
    rcases hcases with rfl | rfl | rfl | rfl
    · exact ⟨_, rfl, rfl⟩
    · exact ⟨_, rfl, rfl⟩
    · exact ⟨_, rfl, rfl⟩
    · exact ⟨_, rfl, rfl⟩
  · intro chartData width
    rfl
  · intro chartData width arenaName prev chart g h hg hprev x
    rw [gap_tick chartData width arenaName (some prev) chart g h hg]
    exact prevTick_some chartData width prev hprev x
  · intro chartData width arenaName chart g h hg
    rw [gap_tick chartData width arenaName none chart g h hg]
    rfl

/-- Witness for C19: "Rascal's Hideout" is second in the list, its previous arena "Spooky
Town" has the means 100 and 40, and the tick on its gap bar is at `100 / 140` of the bar. -/
theorem prev_tick_spec_witness :
    (0 < 1 ∧ 1 < STORY_ARENAS.length) ∧
    (∃ cfg, STORY_ARENAS.get? (1 - 1) = some cfg ∧ prevArena 1 = some cfg.2) ∧
    renderArenaChart sampleStory 700 "Rascal's Hideout" (some "Spooky Town") =
      some { toxicMean := some 50, spellMean := some 50,
             gap := some { toxicX := 0, toxicWidth := 350, spellX := 350, spellWidth := 350,
                           label := "Difference between mean lines: very small in this arena",
                           tickX := some (100 / 140 * 700) } } ∧
    "Spooky Town" ≠ "" ∧
    ∃ pt ps, binMean (binValues (getArenaData sampleStory "Spooky Town") "toxic_troop")
        = some pt ∧
      binMean (binValues (getArenaData sampleStory "Spooky Town") "cheap_spell") = some ps ∧
      0 < pt + ps ∧ (100 / 140 * 700 : ℚ) = pt / (pt + ps) * 700 :=
  ⟨⟨by decide, by decide⟩,
   prev_tick_spec.2.1 1 (by decide) (by decide),
   sampleStory_rascal,
   by decide,
   (prev_tick_spec.2.2.2.1 sampleStory 700 "Rascal's Hideout" "Spooky Town" _ _
      sampleStory_rascal rfl (by decide) (100 / 140 * 700)).1 rfl⟩

end Story

namespace Explore

/-! ## Empty catalog, empty arena configuration -/

theorem getFilteredCards_nil (env : Env) (arena : Option String) (f : Filters) :
    getFilteredCards env [] arena f = [] := by
  rw [getFilteredCards_eq]
  rfl

theorem buildChartDataForArena_nil (env : Env) (arena : Option String) (s : State)
    (sortMode : String) : buildChartDataForArena env [] arena s sortMode = [] := by
  apply List.eq_nil_iff_forall_not_mem.2
  intro d hd
  have harena : truthy arena = true := by
    cases h : truthy arena
    · exfalso
      unfold buildChartDataForArena at hd
      simp [h] at hd
    · rfl
  have hd' := (buildChartDataForArena_perm env [] arena s sortMode harena).mem_iff.1 hd
  obtain ⟨name, row, hg, _⟩ := (mem_combinedData env [] arena s d).1 hd'
  exact absurd hg (by simp [byNameGet])

theorem buildChartDataForArena_no_arena (env : Env) (allCards : List Card) (s : State)
    (sortMode : String) : buildChartDataForArena env allCards none s sortMode = [] := by
  unfold buildChartDataForArena
  simp [truthy]

/-- C20, counterexample: with the sample catalog loaded and no arena configuration, no arena
is selected, yet `getFilteredCards` returns all three cards. -/
theorem getFilteredCards_no_arena_counterexample :
    (initExplorer (some (some sampleCatalog)) none).arenaConfig = [] ∧
    (initExplorer (some (some sampleCatalog)) none).selectedArenaName = none ∧
    (getFilteredCards sampleEnv (initExplorer (some (some sampleCatalog)) none).allCards
      (initExplorer (some (some sampleCatalog)) none).selectedArenaName noFilters).map
        Card.card_name = ["Skeleton Army", "The Log", "Mirror"] ∧
    getFilteredCards sampleEnv (initExplorer (some (some sampleCatalog)) none).allCards
      (initExplorer (some (some sampleCatalog)) none).selectedArenaName noFilters ≠ [] := by
  decide

/-- C20, amended. Once `initExplorer` has run its load callback (so that the explorer and
its filter controls are built): if the loaded catalog is missing (`null`/`undefined`) or
empty, then for every bin state, filter values and chart mode `getFilteredCards` and
`buildChartDataForArena` both return the empty array; if the arena configuration is missing
or empty, no arena is selected and `buildChartDataForArena` returns the empty array, while
`getFilteredCards` skips the win-count test and returns, in some order, the catalog cards
that pass the text and facet filters. When `window.loadCardData` itself is missing nothing
is initialised and `buildChartDataForArena` returns the empty array. -/
theorem inert_empty_state (env : Env) (rows : Option (List Card))
    (arenaConfig : Option (List ArenaEntry)) (s : State) (f : Filters) (sortMode : String) :
    ((rows = none ∨ rows = some []) →
      (initExplorer (some rows) arenaConfig).allCards = [] ∧
      getFilteredCards env (initExplorer (some rows) arenaConfig).allCards
        (initExplorer (some rows) arenaConfig).selectedArenaName f = [] ∧
      buildChartDataForArena env (initExplorer (some rows) arenaConfig).allCards
        (initExplorer (some rows) arenaConfig).selectedArenaName s sortMode = []) ∧
    ((arenaConfig = none ∨ arenaConfig = some []) →
      (initExplorer (some rows) arenaConfig).selectedArenaName = none ∧
      buildChartDataForArena env (initExplorer (some rows) arenaConfig).allCards
        (initExplorer (some rows) arenaConfig).selectedArenaName s sortMode = [] ∧
      (getFilteredCards env (initExplorer (some rows) arenaConfig).allCards
        (initExplorer (some rows) arenaConfig).selectedArenaName f).Perm
        ((initExplorer (some rows) arenaConfig).allCards.filter (fun row =>
          (decide (env.toLowerCase f.searchValue = "") ||
            matchesTerm env (env.toLowerCase f.searchValue) row) &&
          (decide (f.elixirFilter = "") ||
            numStrictEq row.elixir.toNumber (env.toNumber f.elixirFilter)) &&
          (decide (f.rarityFilter = "") || decide (row.rarity = some f.rarityFilter)) &&
          (decide (f.typeFilter = "") || decide (row.card_type = some f.typeFilter))))) ∧
    (initExplorer none arenaConfig = Module.initial ∧
      buildChartDataForArena env (initExplorer none arenaConfig).allCards
        (initExplorer none arenaConfig).selectedArenaName s sortMode = []) := by
  refine ⟨?_, ?_, rfl, buildChartDataForArena_no_arena env _ s sortMode⟩
  · intro hcat
    have hnil : (initExplorer (some rows) arenaConfig).allCards = [] := by
      rcases hcat with h | h <;> subst h <;> rfl
    rw [hnil]
    exact ⟨rfl, getFilteredCards_nil env _ f, buildChartDataForArena_nil env _ s sortMode⟩
  · intro hcfg
    have hsel : (initExplorer (some rows) arenaConfig).selectedArenaName = none := by
      rcases hcfg with h | h <;> subst h <;> rfl
    rw [hsel]
    refine ⟨rfl, buildChartDataForArena_no_arena env _ s sortMode, ?_⟩
    rw [getFilteredCards_eq]
    have hp : passes env none f = (fun row =>
        (decide (env.toLowerCase f.searchValue = "") ||
          matchesTerm env (env.toLowerCase f.searchValue) row) &&
        (decide (f.elixirFilter = "") ||
          numStrictEq row.elixir.toNumber (env.toNumber f.elixirFilter)) &&
        (decide (f.rarityFilter = "") || decide (row.rarity = some f.rarityFilter)) &&
        (decide (f.typeFilter = "") || decide (row.card_type = some f.typeFilter))) := by
      funext row
      simp [passes, truthy]
    rw [hp]
    exact List.perm_insertionSort _ _

/-- Witness for C20 (amended): when the loader resolves to `null` the catalog is empty and
both queries are empty; with the sample catalog and an empty arena configuration no arena
is selected and the chart data are empty. -/
theorem inert_empty_state_witness :
    getFilteredCards sampleEnv (initExplorer (some none) none).allCards
      (initExplorer (some none) none).selectedArenaName noFilters = [] ∧
    buildChartDataForArena sampleEnv (initExplorer (some none) none).allCards
      (initExplorer (some none) none).selectedArenaName State.initial "wins" = [] ∧
    (initExplorer (some (some sampleCatalog)) (some [])).selectedArenaName = none ∧
    buildChartDataForArena sampleEnv (initExplorer (some (some sampleCatalog)) (some [])).allCards
      (initExplorer (some (some sampleCatalog)) (some [])).selectedArenaName
      (inferInitialBins sampleCatalog State.initial) "wins" = [] :=
  ⟨((inert_empty_state sampleEnv none none State.initial noFilters "wins").1
      (Or.inl rfl)).2.1,
   ((inert_empty_state sampleEnv none none State.initial noFilters "wins").1
      (Or.inl rfl)).2.2,
   ((inert_empty_state sampleEnv (some sampleCatalog) (some [])
      (inferInitialBins sampleCatalog State.initial) noFilters "wins").2.1 (Or.inr rfl)).1,
   ((inert_empty_state sampleEnv (some sampleCatalog) (some [])
      (inferInitialBins sampleCatalog State.initial) noFilters "wins").2.1 (Or.inr rfl)).2.1⟩

end Explore

namespace Story

open Explore

/-! ## The two wins domains -/

theorem orNum_some_of_ne_zero (x b : ℚ) (h : x ≠ 0) : orNum (some x) b = x := by
  rw [orNum_some, if_pos h]

theorem arenaChartDomain_eq (sortedData : List Row) (m M : ℚ)
    (hm : d3min (sortedData.map (fun d => (d.wins : ℚ))) = some m)
    (hM : d3max (sortedData.map (fun d => (d.wins : ℚ))) = some M)
    (hpos : 0 < M) :
    arenaChartDomain sortedData =
      (if M + (if (M - m) * (1 / 10) ≠ 0 then (M - m) * (1 / 10) else M * (1 / 10)) ≤
          max 0 (m - (if (M - m) * (1 / 10) ≠ 0 then (M - m) * (1 / 10) else M * (1 / 10)))
        then (0, M)
        else (max 0 (m - (if (M - m) * (1 / 10) ≠ 0 then (M - m) * (1 / 10)
                else M * (1 / 10))),
              M + (if (M - m) * (1 / 10) ≠ 0 then (M - m) * (1 / 10) else M * (1 / 10)))) := by
  have hM0 : M ≠ 0 := ne_of_gt hpos
  have hpad : orNum (some (orNum (some ((M - m) * (1 / 10))) (M * (1 / 10)))) 1 =
      (if (M - m) * (1 / 10) ≠ 0 then (M - m) * (1 / 10) else M * (1 / 10)) := by
    rw [orNum_some ((M - m) * (1 / 10))]
    apply orNum_some_of_ne_zero
    by_cases hz : (M - m) * (1 / 10) ≠ 0
    · rw [if_pos hz]
      exact hz
    · rw [if_neg hz]
      exact mul_ne_zero hM0 (by norm_num)
  unfold arenaChartDomain
  rw [hm, hM]
  simp only [orNum_some_zero, orNum_some_of_ne_zero M 1 hM0]
  rw [hpad]

theorem renderWinsChartDomain_eq (data : List Datum) (m M : ℚ)
    (hm : d3min (data.map (fun d => (d.wins : ℚ))) = some m)
    (hM : d3max (data.map (fun d => (d.wins : ℚ))) = some M)
    (hpos : 0 < M) :
    renderWinsChartDomain data =
      (if M + (if (M - m) * (1 / 10) ≠ 0 then (M - m) * (1 / 10) else M * (1 / 10)) ≤
          max 0 (m - (if (M - m) * (1 / 10) ≠ 0 then (M - m) * (1 / 10) else M * (1 / 10)))
        then (0, M)
        else (max 0 (m - (if (M - m) * (1 / 10) ≠ 0 then (M - m) * (1 / 10)
                else M * (1 / 10))),
              M + (if (M - m) * (1 / 10) ≠ 0 then (M - m) * (1 / 10) else M * (1 / 10)))) := by
  have hM0 : M ≠ 0 := ne_of_gt hpos
  unfold renderWinsChartDomain
  rw [hm, hM]
  simp only [orNum_some_zero, orNum_some_of_ne_zero M 1 hM0]
  rw [orNum_some ((M - m) * (1 / 10))]

theorem arenaChartDomain_agrees (sortedData : List Row) (data : List Datum)
    (hsame : (sortedData.map (fun d => d.wins)).Perm (data.map (fun d => d.wins)))
    (hpos : ∃ d ∈ data, 0 < d.wins) :
    arenaChartDomain sortedData = renderWinsChartDomain data := by
  have hperm : (sortedData.map (fun d => (d.wins : ℚ))).Perm
      (data.map (fun d => (d.wins : ℚ))) := by
    have h := hsame.map (fun n : Int => (n : ℚ))
    simpa [List.map_map, Function.comp] using h
  have hne : data.map (fun d => (d.wins : ℚ)) ≠ [] := by
    obtain ⟨d, hd, _⟩ := hpos
    intro h
    have hnil := List.map_eq_nil_iff.1 h
    rw [hnil] at hd
    exact absurd hd (List.not_mem_nil d)
  obtain ⟨m, hm, hmem, hmle⟩ := d3min_exists _ hne
  obtain ⟨M, hM, hMmem, hMle⟩ := d3max_exists _ hne
  have hMpos : 0 < M := by
    obtain ⟨d, hd, hw⟩ := hpos
    have hdM : ((d.wins : Int) : ℚ) ≤ M := hMle _ (List.mem_map.2 ⟨d, hd, rfl⟩)
    have hw' : (0 : ℚ) < (d.wins : ℚ) := by exact_mod_cast hw
    exact lt_of_lt_of_le hw' hdM
  have hm' : d3min (sortedData.map (fun d => (d.wins : ℚ))) = some m :=
    d3min_eq _ m (hperm.mem_iff.2 hmem) (fun v hv => hmle v (hperm.mem_iff.1 hv))
  have hM' : d3max (sortedData.map (fun d => (d.wins : ℚ))) = some M :=
    d3max_eq _ M (hperm.mem_iff.2 hMmem) (fun v hv => hMle v (hperm.mem_iff.1 hv))
  rw [arenaChartDomain_eq sortedData m M hm' hM' hMpos,
    renderWinsChartDomain_eq data m M hm hM hMpos]

/-- C21. For story rows and explorer chart data holding the same win values (in any
order), all non-negative and at least one strictly positive, the domain `[yMin, yMax]` that
`renderArenaChart` (story.js) computes before `.nice()` from its sorted copy of the rows
equals the one `renderWinsChart` (explore.js) computes from the chart data; so it is for
the rows `getArenaData` returns for an arena. -/
theorem wins_domains_agree (rows : List Row) (data : List Datum)
    (hsame : (rows.map (fun d => d.wins)).Perm (data.map (fun d => d.wins)))
    (hnonneg : ∀ d ∈ data, 0 ≤ d.wins) (hpos : ∃ d ∈ data, 0 < d.wins) :
    arenaChartDomain (rows.insertionSort rowWinsDesc) = renderWinsChartDomain data ∧
    (∀ (chartData : Option (String → Option (List Row))) (arenaName : String),
      getArenaData chartData arenaName = rows →
      renderArenaChartDomain chartData arenaName = renderWinsChartDomain data) ∧
    (renderWinsChartDomain data).1 < (renderWinsChartDomain data).2 := by
  have hne : data ≠ [] := by
    obtain ⟨d, hd, _⟩ := hpos
    exact List.ne_nil_of_mem hd
  have key : arenaChartDomain (rows.insertionSort rowWinsDesc) = renderWinsChartDomain data :=
    arenaChartDomain_agrees _ data
      (((List.perm_insertionSort rowWinsDesc rows).map (fun d => d.wins)).trans hsame) hpos
  refine ⟨key, ?_, renderWinsChartDomain_lt data hne hnonneg⟩
  intro chartData arenaName hrows
  unfold renderArenaChartDomain
  rw [hrows]
  exact key

/-- Witness for C21: the sample arena "Spooky Town" and the sample chart data both hold
the wins 100 and 40, and their domains coincide. -/
theorem wins_domains_agree_witness :
    ((getArenaData sampleStory "Spooky Town").map (fun d => d.wins)).Perm
      (sampleWinsData.map (fun d => d.wins)) ∧
    (∀ d ∈ sampleWinsData, 0 ≤ d.wins) ∧ (∃ d ∈ sampleWinsData, 0 < d.wins) ∧
    arenaChartDomain ((getArenaData sampleStory "Spooky Town").insertionSort rowWinsDesc) =
      renderWinsChartDomain sampleWinsData ∧
    renderArenaChartDomain sampleStory "Spooky Town" = renderWinsChartDomain sampleWinsData :=
  have hsame : ((getArenaData sampleStory "Spooky Town").map (fun d => d.wins)).Perm
      (sampleWinsData.map (fun d => d.wins)) := List.Perm.refl _
  have hnonneg : ∀ d ∈ sampleWinsData, 0 ≤ d.wins := by
    intro d hd
    simp only [sampleWinsData, List.mem_cons, List.mem_singleton, List.not_mem_nil,
      or_false] at hd
    rcases hd with rfl | rfl <;> decide
  have hpos : ∃ d ∈ sampleWinsData, 0 < d.wins :=
    ⟨_, List.mem_cons_self _ _, by decide⟩
  ⟨hsame, hnonneg, hpos,
   (wins_domains_agree (getArenaData sampleStory "Spooky Town") sampleWinsData
      hsame hnonneg hpos).1,
   (wins_domains_agree (getArenaData sampleStory "Spooky Town") sampleWinsData
      hsame hnonneg hpos).2.1 sampleStory "Spooky Town" rfl⟩

end Story
